import Mathlib

/-!
# MidiControl: a verification development for `MidiControl/Main.c`

The C program is embedded shallowly.  Machine integers are natural numbers or
integers with explicit reduction modulo a power of two where the C code
converts between types.  The outside world (the content of `config.ini`, the
results of `fopen_s`, `calloc`, `midiInOpen`, `midiInStart`, `WaitOnAddress`)
is an explicit input `Env`; every call that leaves the program is recorded in a
trace of `Event`s, and the heap and the state of the file handle are explicit
state in `World`.
-/

namespace MidiControl

set_option linter.unusedVariables false

/-! ## Constants of the C library and of the Windows SDK headers -/

/-- The `errno.h` code for "no such file or directory". -/
def ENOENT : Nat := 2

/-- The `errno.h` code for "not enough memory". -/
def ENOMEM : Nat := 12

/-- The `stdio.h` end-of-file return value. -/
def EOF : Int := -1

/-- The `stdlib.h` successful exit status. -/
def EXIT_SUCCESS : Int := 0

/-- The `stdlib.h` failing exit status. -/
def EXIT_FAILURE : Int := 1

/-- The `mmsystem.h` "no error" result of the MIDI functions. -/
def MMSYSERR_NOERROR : Nat := 0

/-- The `WinUser.h` virtual key code of the "next track" media key. -/
def VK_MEDIA_NEXT_TRACK : Int := 0xB0

/-- The `WinUser.h` virtual key code of the "previous track" media key. -/
def VK_MEDIA_PREV_TRACK : Int := 0xB1

/-- The `WinUser.h` virtual key code of the "play / pause" media key. -/
def VK_MEDIA_PLAY_PAUSE : Int := 0xB3

/-- The `WinUser.h` tag of a keyboard `INPUT`. -/
def INPUT_KEYBOARD : Nat := 1

/-- The `WinUser.h` flag that marks a keyboard event as a key release; a
keyboard event without it is a key press. -/
def KEYEVENTF_KEYUP : Nat := 2

/-- The `sizeof(action_t)`: two `unsigned int` fields. -/
def sizeof_action_t : Nat := 8

/-- The `minwindef.h` macro `LOWORD(l)`: `(WORD)(l & 0xffff)`. -/
def LOWORD (l : Nat) : Nat := l % 65536

/-- The `minwindef.h` macro `LOBYTE(w)`: `(BYTE)(w & 0xff)`. -/
def LOBYTE (w : Nat) : Nat := w % 256

/-- The `minwindef.h` macro `HIBYTE(w)`: `(BYTE)((w >> 8) & 0xff)`. -/
def HIBYTE (w : Nat) : Nat := (w / 256) % 256

/-- Conversion of an `unsigned int` to `int` (two's complement, 32 bits), as
performed by the assignment `action = (cfg->actions + i)->action`. -/
def int_of_unsigned (u : Nat) : Int :=
  if u % 4294967296 < 2147483648 then ((u % 4294967296 : Nat) : Int)
  else ((u % 4294967296 : Nat) : Int) - 4294967296

/-! ## Data model -/

/-- Assigns an action to a MIDI tone (`action_t`). -/
structure action_t where
  tone : Nat
  action : Nat
deriving DecidableEq, Repr

/-- Contains app configuration (`config_t`).  The field `actions` is a pointer:
`0` is `NULL`, any other value is an address. -/
structure config_t where
  actions : Nat
  input_device : Nat
  number_actions : Nat
deriving DecidableEq, Repr

/-- The Windows `KEYBDINPUT` structure. -/
structure KEYBDINPUT where
  wVk : Nat
  wScan : Nat
  dwFlags : Nat
  time : Nat
  dwExtraInfo : Nat
deriving DecidableEq, Repr

/-- The Windows `INPUT` structure, keyboard member only. -/
structure INPUT where
  type : Nat
  ki : KEYBDINPUT
deriving DecidableEq, Repr

/-- A call that leaves the program, with its arguments and (where the program
looks at it) its result. -/
inductive Event where
  | fopen_s (filename mode : String) (ret : Nat)
  | TaskDialog (text : String)
  | calloc (count size ret : Nat)
  | free (p : Nat)
  | midiInOpen (device ret : Nat)
  | midiInStart (ret : Nat)
  | WaitOnAddress
  | midiInStop
  | midiInClose
  | SendInput (cInputs : Nat) (pInputs : List INPUT)
deriving DecidableEq, Repr

/-- The live heap blocks: address and content. -/
abbrev Heap := List (Nat × List action_t)

/-- The state outside the local variables: whether the handle of `config.ini`
is open, the heap, and the trace of calls made so far. -/
structure World where
  file_open : Bool
  heap : Heap
  trace : List Event
deriving DecidableEq, Repr

/-- What the environment answers to the program. -/
structure Env where
  /-- return value of `fopen_s` -/
  fopen_ret : Nat
  /-- content of `config.ini` as delivered by a text-mode stream -/
  file_text : List Char
  /-- return value of `calloc`, `0` for `NULL` -/
  calloc_ret : Nat
  /-- value of `errno` after `calloc` -/
  errno : Nat
  /-- return value of `midiInOpen` -/
  midiInOpen_ret : Nat
  /-- return value of `midiInStart` -/
  midiInStart_ret : Nat
  /-- whether `WaitOnAddress` ever returns -/
  wait_returns : Bool

/-- How a run of `main` ends: with an exit status, or parked forever in
`WaitOnAddress`. -/
inductive Outcome where
  | exit (code : Int)
  | parked
deriving DecidableEq, Repr

/-! ## Heap operations -/

/-- The block at address `p`, if live. -/
def heap_block : Heap → Nat → Option (List action_t)
  | [], _ => none
  | (q, b) :: h, p => if q = p then some b else heap_block h p

/-- Reads element `i` of the array at address `p`; `none` when the read is
outside every live block. -/
def heap_read (h : Heap) (p i : Nat) : Option action_t :=
  match heap_block h p with
  | none => none
  | some b => b.get? i

/-- Applies `f` to element `i` of an array. -/
def modify_at (f : action_t → action_t) : List action_t → Nat → List action_t
  | [], _ => []
  | b :: bs, 0 => f b :: bs
  | b :: bs, i + 1 => b :: modify_at f bs i

/-- Replaces element `i` of the array at address `p`. -/
def heap_update : Heap → Nat → Nat → (action_t → action_t) → Heap
  | [], _, _, _ => []
  | (q, b) :: h, p, i, f =>
    if q = p then (q, modify_at f b i) :: h else (q, b) :: heap_update h p i f

/-- Removes the block at address `p` (the effect of `free(p)`; `free(NULL)`
does nothing). -/
def heap_free : Heap → Nat → Heap
  | [], _ => []
  | (q, b) :: h, p => if q = p then h else (q, b) :: heap_free h p

/-! ## The `fscanf_s` model -/

/-- The C `isspace` in the "C" locale. -/
def isspace (c : Char) : Bool :=
  c = ' ' || c = '\t' || c = '\n' || c = '\x0b' || c = '\x0c' || c = '\r'

/-- The C `isdigit`. -/
def isdigit (c : Char) : Bool := decide ('0' ≤ c) && decide (c ≤ '9')

/-- A directive of a scan format. -/
inductive Directive where
  | space
  | lit (c : Char)
  | conv_u
deriving DecidableEq, Repr

/-- Splits a format string into directives: white space, `%u`, or an ordinary
character. -/
def parse_format : List Char → List Directive
  | [] => []
  | [c] => if isspace c then [Directive.space] else [Directive.lit c]
  | c :: d :: rest =>
    if c = '%' && d = 'u' then Directive.conv_u :: parse_format rest
    else if isspace c then Directive.space :: parse_format (d :: rest)
    else Directive.lit c :: parse_format (d :: rest)

/-- Skips white space at the head of the stream. -/
def skip_space : List Char → List Char
  | [] => []
  | c :: cs => if isspace c then skip_space cs else c :: cs

/-- Reads decimal digits, accumulating their value. -/
def scan_digits : Nat → List Char → Nat × List Char
  | acc, [] => (acc, [])
  | acc, c :: cs =>
    if isdigit c then scan_digits (acc * 10 + (c.toNat - 48)) cs else (acc, c :: cs)

/-- The result of one conversion. -/
inductive Conv where
  | value (v : Nat) (rest : List Char)
  | matching_failure (rest : List Char)
  | input_failure
deriving DecidableEq, Repr

/-- The conversion of a scanned decimal numeral of value `v` to `unsigned
int`, as the C library does it for `%u`: the numeral is converted at 64 bits,
where a value of `2^64` or more saturates to `2^64 - 1` whatever the sign, a
minus sign negates modulo `2^64`, and the low 32 bits are stored. -/
def convert_unsigned (negative : Bool) (v : Nat) : Nat :=
  if 18446744073709551616 ≤ v then 18446744073709551615 % 4294967296
  else if negative then (18446744073709551616 - v) % 18446744073709551616 % 4294967296
  else v % 4294967296

/-- The digits of a `%u` item, after an optional sign was consumed. -/
def scan_magnitude (negative : Bool) (s : List Char) : Conv :=
  match s with
  | [] => Conv.matching_failure []
  | c :: cs =>
    if isdigit c then
      let r := scan_digits 0 (c :: cs)
      Conv.value (convert_unsigned negative r.1) r.2
    else Conv.matching_failure (c :: cs)

/-- The `%u` conversion: skips white space, reads an optionally signed decimal
integer (as `strtoul` with base 10) and converts it to `unsigned int` with
`convert_unsigned`. -/
def scan_unsigned (input : List Char) : Conv :=
  match skip_space input with
  | [] => Conv.input_failure
  | c :: cs =>
    if c = '-' then scan_magnitude true cs
    else if c = '+' then scan_magnitude false cs
    else scan_magnitude false (c :: cs)

/-- What a call of `fscanf_s` yields: its return value, the converted values in
the order of the receiving arguments, and the stream after the call. -/
structure ScanResult where
  ret : Int
  assigned : List Nat
  rest : List Char
deriving DecidableEq, Repr

/-- Return value when end of file stops the scan: `EOF` before the first
conversion has completed, the number of assignments afterwards. -/
def input_failure_ret (assigned : List Nat) : Int :=
  if assigned.isEmpty then EOF else (assigned.length : Int)

/-- Executes the directives of a format on a stream. -/
def scan : List Directive → List Char → List Nat → ScanResult
  | [], input, assigned => ⟨(assigned.length : Int), assigned, input⟩
  | Directive.space :: fmt, input, assigned => scan fmt (skip_space input) assigned
  | Directive.lit c :: fmt, input, assigned =>
    match input with
    | [] => ⟨input_failure_ret assigned, assigned, []⟩
    | x :: xs =>
      if x = c then scan fmt xs assigned
      else ⟨(assigned.length : Int), assigned, x :: xs⟩
  | Directive.conv_u :: fmt, input, assigned =>
    match scan_unsigned input with
    | Conv.value v rest => scan fmt rest (assigned ++ [v])
    | Conv.matching_failure rest => ⟨(assigned.length : Int), assigned, rest⟩
    | Conv.input_failure => ⟨input_failure_ret assigned, assigned, []⟩

/-- The call `fscanf_s(file, format, ...)` with only `%u` conversions. -/
def fscanf_s (file : List Char) (format : String) : ScanResult :=
  scan (parse_format format.toList) file []

/-! ## The program -/

/-- The macro `error_msg(x)`: a `TaskDialog` with the text `x`. -/
def error_msg (x : String) (w : World) : World :=
  { w with trace := w.trace ++ [Event.TaskDialog x] }

/-- The call `free(p)`. -/
def free (p : Nat) (w : World) : World :=
  { w with heap := heap_free w.heap p, trace := w.trace ++ [Event.free p] }

/-- The call `calloc(count, size)`: the environment chooses the result; a
non-null result is a fresh zero-filled block. -/
def calloc (env : Env) (count size : Nat) (w : World) : Nat × World :=
  (env.calloc_ret,
   { w with
     heap := if env.calloc_ret = 0 then w.heap
             else (env.calloc_ret, List.replicate count ⟨0, 0⟩) :: w.heap,
     trace := w.trace ++ [Event.calloc count size env.calloc_ret] })

/-- Stores the values assigned by the header scan through the pointers
`&config->input_device` and `&config->number_actions`. -/
def store_header (config : config_t) : List Nat → config_t
  | [] => config
  | [d] => { config with input_device := d }
  | d :: n :: _ => { config with input_device := d, number_actions := n }

/-- Stores the values assigned by a binding scan through the pointers
`&(config->actions + i)->tone` and `&(config->actions + i)->action`. -/
def store_action (h : Heap) (p i : Nat) : List Nat → Heap
  | [] => h
  | [t] => heap_update h p i (fun b => { b with tone := t })
  | t :: a :: _ => heap_update h p i (fun _ => ⟨t, a⟩)

/-- The format of the first `fscanf_s` call of `load_config`. -/
def header_format : String :=
  "[Common]\nInputDevice=%u\nNumberActions=%u\n\n[Actions]\n"

/-- The format of the `fscanf_s` call in the loop of `load_config`. -/
def binding_format : String := "%u=%u\n"

/-- The loop "Read actions" of `load_config`: `n` iterations remain, `i` is
the loop counter, `file` the stream.  Returns `false` after the failure branch
was taken (dialog shown, buffer freed), `true` when the loop ran to its end. -/
def read_actions (config : config_t) : Nat → Nat → List Char → World → Bool × World
  | 0, _, _, w => (true, w)
  | n + 1, i, file, w =>
    let r := fscanf_s file binding_format
    let w1 := { w with heap := store_action w.heap config.actions i r.assigned }
    if r.ret ≠ 2 then
      (false, free config.actions (error_msg "Invalid config file." w1))
    else read_actions config n (i + 1) r.rest w1

/-- The function `load_config`: the result, the caller's `config_t` after the
call, and the world after the call. -/
def load_config (env : Env) (config : config_t) (w : World) : Bool × config_t × World :=
  -- Try to open file
  let w1 := { w with
    trace := w.trace ++ [Event.fopen_s "config.ini" "rt" env.fopen_ret],
    file_open := if env.fopen_ret = 0 then true else w.file_open }
  if env.fopen_ret = 0 then
    -- Try to read common config section
    let r := fscanf_s env.file_text header_format
    let config1 := store_header config r.assigned
    if r.ret ≠ 2 then
      (false, config1, error_msg "Invalid config file." w1)
    else
      -- Try to allocate memory for actions
      let a := calloc env config1.number_actions sizeof_action_t w1
      let config2 := { config1 with actions := a.1 }
      if config2.actions = 0 then
        if env.errno = ENOMEM then
          (false, config2, error_msg "Unable to allocate memory: Not enough memory left." a.2)
        else
          (false, config2, error_msg "An unknown error occurred trying to allocate memory." a.2)
      else
        -- Read actions
        let l := read_actions config2 config2.number_actions 0 r.rest a.2
        (l.1, config2, l.2)
  else if env.fopen_ret = ENOENT then
    (false, config, error_msg
      "An error occured trying to open the config file:\nFile \"config.ini\" not found." w1)
  else
    (false, config, error_msg "An unknown error occured trying to open the config file." w1)

/-- The call `SendInput(cInputs, pInputs, cbSize)`: submits the first
`cInputs` elements of the array. -/
def SendInput (cInputs : Nat) (pInputs : List INPUT) : List Event :=
  [Event.SendInput cInputs (pInputs.take cInputs)]

/-- The function `send_input`: the calls it makes. -/
def send_input (key : Int) : List Event :=
  let keybd : KEYBDINPUT :=
    { wScan := 0, dwFlags := 0, time := 0, dwExtraInfo := 0, wVk := (key % 65536).toNat }
  let key_input : List INPUT := [{ type := INPUT_KEYBOARD, ki := keybd }]
  SendInput 1 key_input

/-- The loop "Search for an action paired with the received tone" of
`MidiInProc`: `n` iterations remain, `i` is the loop counter, `action` the
current value of the local variable.  Returns the value of `action` after the
loop, or `none` when the loop reads outside every live block. -/
def search_action (h : Heap) (cfg : config_t) (tone : Int) : Nat → Nat → Int → Option Int
  | 0, _, action => some action
  | n + 1, i, action =>
    match heap_read h cfg.actions i with
    | none => none
    | some b =>
      if ((b.tone % 4294967296 : Nat) : Int) = tone % 4294967296 then
        some (int_of_unsigned b.action)
      else search_action h cfg tone n (i + 1) action

/-- The `switch (action)` of `MidiInProc`. -/
def perform (action : Int) : List Event :=
  if action = 0 then send_input VK_MEDIA_PREV_TRACK
  else if action = 1 then send_input VK_MEDIA_NEXT_TRACK
  else if action = 2 then send_input VK_MEDIA_PLAY_PAUSE
  else []

/-- The callback `MidiInProc`: the calls it makes, or `none` when it reads
outside every live block.  The argument `dwInstance` is the `config_t` the
instance pointer points to. -/
def MidiInProc (h : Heap) (hMidiIn wMsg : Nat) (dwInstance : config_t)
    (dwParam1 dwParam2 : Nat) : Option (List Event) :=
  let midi_action : Int := (LOBYTE (LOWORD dwParam1) : Nat)
  let tone : Int := (HIBYTE (LOWORD dwParam1) : Nat)
  let action : Int := -1
  let cfg := dwInstance
  -- If input device sends other message than key press, exit function
  if midi_action ≠ 144 then some []
  else
    match search_action h cfg tone cfg.number_actions 0 action with
    | none => none
    | some action1 => some (perform action1)

/-- A world in which nothing has happened yet. -/
def initial_world : World := { file_open := false, heap := [], trace := [] }

/-- The function `main`, started with an uninitialised `cfg` and an empty
world: how the run ends, the final `cfg`, and the final world. -/
def main (env : Env) (cfg : config_t) : Outcome × config_t × World :=
  let l := load_config env cfg initial_world
  if !l.1 then (Outcome.exit EXIT_FAILURE, l.2.1, l.2.2)
  else
    let cfg1 := l.2.1
    -- Try to connect to input device
    let w1 := { l.2.2 with
      trace := l.2.2.trace ++ [Event.midiInOpen cfg1.input_device env.midiInOpen_ret] }
    if env.midiInOpen_ret ≠ MMSYSERR_NOERROR then
      (Outcome.exit EXIT_FAILURE, cfg1, error_msg "Unable to connect to the input device." w1)
    else
      -- Try to start listening
      let w2 := { w1 with trace := w1.trace ++ [Event.midiInStart env.midiInStart_ret] }
      if env.midiInStart_ret ≠ MMSYSERR_NOERROR then
        (Outcome.exit EXIT_FAILURE, cfg1, error_msg "Unable to start listening." w2)
      else
        let w3 := { w2 with trace := w2.trace ++ [Event.WaitOnAddress] }
        if env.wait_returns then
          -- Disconnect, clean up and exit
          let w4 := { w3 with trace := w3.trace ++ [Event.midiInStop, Event.midiInClose] }
          (Outcome.exit EXIT_SUCCESS, cfg1, free cfg1.actions w4)
        else (Outcome.parked, cfg1, w3)

/-! ## Vocabulary of the specification -/

/-- The configuration `cfg` holds the bindings `bs`: its `actions` pointer is
the address of a live block with content `bs`, `number_actions` is their
number, and every field is a 32-bit unsigned value. -/
def holds_bindings (h : Heap) (cfg : config_t) (bs : List action_t) : Prop :=
  heap_block h cfg.actions = some bs ∧ cfg.number_actions = bs.length ∧
    ∀ b ∈ bs, b.tone < 4294967296 ∧ b.action < 4294967296

/-- The first binding, in stored order, whose tone is `tone`. -/
def first_binding (bs : List action_t) (tone : Nat) : Option action_t :=
  bs.find? (fun b => decide (b.tone = tone))

/-- The input events submitted to the operating system by a list of calls. -/
def submitted : List Event → List INPUT
  | [] => []
  | Event.SendInput _ xs :: es => xs ++ submitted es
  | _ :: es => submitted es

/-- A key-press event for the key `key`. -/
def is_key_press (key : Int) (x : INPUT) : Bool :=
  x.type = INPUT_KEYBOARD && x.ki.wVk = (key % 65536).toNat &&
    x.ki.dwFlags &&& KEYEVENTF_KEYUP = 0

/-- A key-release event for the key `key`. -/
def is_key_release (key : Int) (x : INPUT) : Bool :=
  x.type = INPUT_KEYBOARD && x.ki.wVk = (key % 65536).toNat &&
    x.ki.dwFlags &&& KEYEVENTF_KEYUP ≠ 0

/-- The sequence contains a key-press event for `key` followed by a
key-release event for the same key. -/
def press_then_release (key : Int) : List INPUT → Bool
  | [] => false
  | x :: xs => (is_key_press key x && xs.any (is_key_release key)) || press_then_release key xs

/-- A heap with one block at address `4096` holding the bindings
`(60,2)` and `(62,0)`. -/
def sample_heap : Heap := [(4096, [⟨60, 2⟩, ⟨62, 0⟩])]

/-- A configuration whose bindings are the block of `sample_heap`. -/
def sample_cfg : config_t := { actions := 4096, input_device := 0, number_actions := 2 }

/-- The texts of the dialogs shown by a list of calls, in order. -/
def dialogs : List Event → List String
  | [] => []
  | Event.TaskDialog s :: es => s :: dialogs es
  | _ :: es => dialogs es

/-- The event is an error dialog or a heap call (`calloc`, `free`). -/
def is_dialog_or_heap : Event → Bool
  | Event.TaskDialog _ => true
  | Event.calloc _ _ _ => true
  | Event.free _ => true
  | _ => false

/-- A decimal numeral: a non-empty sequence of decimal digits. -/
def is_numeral (ds : List Char) : Prop := ds ≠ [] ∧ ∀ c ∈ ds, isdigit c = true

/-- The number a decimal numeral denotes. -/
def decimal_value (ds : List Char) : Nat :=
  ds.foldl (fun acc c => acc * 10 + (c.toNat - 48)) 0

/-- A numeral of a 32-bit unsigned integer. -/
def is_uint32_numeral (ds : List Char) : Prop := is_numeral ds ∧ decimal_value ds < 4294967296

/-- The lines `tone=action` of the section `[Actions]`, each ended by a
newline, for the given pairs of numerals. -/
def actions_text : List (List Char × List Char) → List Char
  | [] => []
  | l :: ls => l.1 ++ '=' :: (l.2 ++ '\n' :: actions_text ls)

/-- The config file text of the grammar: `[Common]`, `InputDevice=d`,
`NumberActions=n`, an empty line, `[Actions]`, then the binding lines. -/
def config_text (d n : List Char) (lines : List (List Char × List Char)) : List Char :=
  "[Common]\nInputDevice=".toList ++ (d ++ ("\nNumberActions=".toList ++
    (n ++ ("\n\n[Actions]\n".toList ++ actions_text lines))))

/-- The bindings the binding lines denote: first number the tone, second the
action. -/
def bindings_of (lines : List (List Char × List Char)) : List action_t :=
  lines.map (fun l => ⟨decimal_value l.1, decimal_value l.2⟩)

/-- One of the first `n` binding scans of the stream does not yield two
unsigned integers (malformed line, or end of file before `n` lines). -/
def bindings_malformed : Nat → List Char → Bool
  | 0, _ => false
  | n + 1, file =>
    decide ((fscanf_s file binding_format).ret ≠ 2) ||
      bindings_malformed n (fscanf_s file binding_format).rest

/-- An uninitialised `config_t` with arbitrary content. -/
def garbage_cfg : config_t := { actions := 77, input_device := 88, number_actions := 99 }

/-- An environment with a well-formed `config.ini` of two bindings in which
every call succeeds. -/
def sample_env : Env :=
  { fopen_ret := 0,
    file_text := "[Common]\nInputDevice=3\nNumberActions=2\n\n[Actions]\n60=2\n62=0\n".toList,
    calloc_ret := 4096, errno := 0, midiInOpen_ret := 0, midiInStart_ret := 0,
    wait_returns := false }

/-- The environment `sample_env` with a `config.ini` that declares three
bindings and supplies two. -/
def short_env : Env :=
  { sample_env with
    file_text := "[Common]\nInputDevice=3\nNumberActions=3\n\n[Actions]\n60=2\n62=0\n".toList }

/-- The stream is at its end or its next character is not a digit. -/
def no_digit_ahead : List Char → Bool
  | [] => true
  | c :: _ => !isdigit c

instance (h : Heap) (cfg : config_t) (bs : List action_t) :
    Decidable (holds_bindings h cfg bs) := by
  unfold holds_bindings
  infer_instance

instance (ds : List Char) : Decidable (is_numeral ds) := by
  unfold is_numeral
  infer_instance

instance (ds : List Char) : Decidable (is_uint32_numeral ds) := by
  unfold is_uint32_numeral
  infer_instance

/-- The environment `sample_env` in which `calloc` returns `NULL` with
`errno == ENOMEM`. -/
def oom_env : Env := { sample_env with calloc_ret := 0, errno := ENOMEM }

/-- An environment whose `config.ini` declares 4294967295 bindings and
supplies two, and in which `calloc` returns `NULL` with `errno == ENOMEM`. -/
def huge_env : Env :=
  { sample_env with
    file_text :=
      "[Common]\nInputDevice=3\nNumberActions=4294967295\n\n[Actions]\n60=2\n62=0\n".toList,
    calloc_ret := 0, errno := ENOMEM }

/-- The environment `sample_env` with a `config.ini` whose header supplies
`InputDevice` and no number for `NumberActions`. -/
def half_header_env : Env :=
  { sample_env with file_text := "[Common]\nInputDevice=5\nNumberActions=x\n".toList }

/-- The environment `sample_env` in which `midiInOpen` fails. -/
def no_device_env : Env := { sample_env with midiInOpen_ret := 2 }

/-- White space only (possibly nothing). -/
def is_blank (ws : List Char) : Prop := ∀ c ∈ ws, isspace c = true

/-- An optional sign: nothing, `+` or `-`. -/
def is_sign (sg : List Char) : Prop := sg = [] ∨ sg = ['+'] ∨ sg = ['-']

/-- The text `s` begins with an unsigned integer in the sense of `%u`:
optional white space, an optional sign and a decimal numeral that extends as
far as digits go; `v` is the `unsigned int` it converts to and `rest` the text
that follows it. -/
def reads_unsigned (s : List Char) (v : Nat) (rest : List Char) : Prop :=
  ∃ ws sg ds, s = ws ++ (sg ++ (ds ++ rest)) ∧ is_blank ws ∧ is_sign sg ∧ is_numeral ds ∧
    no_digit_ahead rest = true ∧ v = convert_unsigned (decide (sg = ['-'])) (decimal_value ds)

/-- The text begins with `[Common]`, white space, `InputDevice=` and an
unsigned integer converting to `d`; `rest` is the text that follows it. -/
def device_begins (text : List Char) (d : Nat) (rest : List Char) : Prop :=
  ∃ ws s, text = "[Common]".toList ++ (ws ++ ("InputDevice=".toList ++ s)) ∧ is_blank ws ∧
    reads_unsigned s d rest

/-- The text begins with a header that yields two unsigned integers:
`[Common]`, `InputDevice=` with an unsigned integer converting to `d`,
`NumberActions=` with an unsigned integer converting to `N`, any white space
(also none) between the parts; `tail` is the text after the second integer. -/
def header_begins (text : List Char) (d N : Nat) (tail : List Char) : Prop :=
  ∃ rest ws s, device_begins text d rest ∧ rest = ws ++ ("NumberActions=".toList ++ s) ∧
    is_blank ws ∧ reads_unsigned s N tail

/-- Drops from the stream the longest prefix of `label` it begins with and,
when the whole label was there, the white space after it. -/
def drop_label : List Char → List Char → List Char
  | [], s => skip_space s
  | _ :: _, [] => []
  | l :: ls, c :: cs => if c = l then drop_label ls cs else c :: cs

/-- The text at which the binding items start: the text after the header
without leading white space and without the label `[Actions]` (or the part of
it that is there). -/
def after_header (tail : List Char) : List Char :=
  drop_label "[Actions]".toList (skip_space tail)

/-- The text begins with `n` binding items `tone=action`, each two unsigned
integers around `=`; white space may stand before each integer, so items need
no line of their own. -/
def items_begin : Nat → List Char → Prop
  | 0, _ => True
  | n + 1, s => ∃ t a s1 s2, reads_unsigned s t ('=' :: s1) ∧ reads_unsigned s1 a s2 ∧
      items_begin n s2

/-- The directives of the header format after the first conversion: white
space, `NumberActions=`, `%u`, white space twice, `[Actions]`, white space. -/
def count_directives : List Directive :=
  Directive.space :: ("NumberActions=".toList.map Directive.lit ++ (Directive.conv_u ::
    Directive.space :: Directive.space ::
      ("[Actions]".toList.map Directive.lit ++ [Directive.space])))

instance (ws : List Char) : Decidable (is_blank ws) := by
  unfold is_blank
  infer_instance

instance (sg : List Char) : Decidable (is_sign sg) := by
  unfold is_sign
  infer_instance

/-- The environment `sample_env` with a `config.ini` that declares two
bindings and holds both on a single binding line. -/
def one_line_env : Env :=
  { sample_env with
    file_text := "[Common]\nInputDevice=3\nNumberActions=2\n\n[Actions]\n60=2 62=0\n".toList }

/-- The environment `sample_env` with a `config.ini` that declares 4294967296
bindings and supplies one binding line. -/
def wrap_env : Env :=
  { sample_env with
    file_text :=
      "[Common]\nInputDevice=3\nNumberActions=4294967296\n\n[Actions]\n60=2\n".toList }

/-! ## Lemmas on the dispatch -/

theorem LOBYTE_LOWORD (x : Nat) : LOBYTE (LOWORD x) = x % 256 := by
  unfold LOBYTE LOWORD; omega

theorem HIBYTE_LOWORD (x : Nat) : HIBYTE (LOWORD x) = x / 256 % 256 := by
  unfold HIBYTE LOWORD; omega

theorem int_of_unsigned_small (a : Nat) (h : a < 2147483648) : int_of_unsigned a = a := by
  unfold int_of_unsigned
  have : a % 4294967296 = a := Nat.mod_eq_of_lt (by omega)
  rw [this]; simp [h]

theorem int_of_unsigned_large (a : Nat) (h1 : 2147483648 ≤ a) (h2 : a < 4294967296) :
    int_of_unsigned a < 0 := by
  unfold int_of_unsigned
  have : a % 4294967296 = a := Nat.mod_eq_of_lt h2
  rw [this]
  have : ¬ a < 2147483648 := by omega
  simp only [this, if_false]
  omega

theorem heap_read_of_block (h : Heap) (p i : Nat) (bs : List action_t)
    (hb : heap_block h p = some bs) : heap_read h p i = bs.get? i := by
  simp [heap_read, hb]

theorem search_action_drop (h : Heap) (cfg : config_t) (bs : List action_t) (tone : Nat)
    (hb : heap_block h cfg.actions = some bs)
    (h32 : ∀ b ∈ bs, b.tone < 4294967296 ∧ b.action < 4294967296) (ht : tone < 256) :
    ∀ (n i : Nat) (action : Int), i + n = bs.length →
      search_action h cfg (tone : Int) n i action =
        some (match first_binding (bs.drop i) tone with
              | some b => int_of_unsigned b.action
              | none => action) := by
  intro n
  induction n with
  | zero =>
    intro i action hi
    have : bs.drop i = [] := List.drop_eq_nil_of_le (by omega)
    simp [search_action, first_binding, this]
  | succ n ih =>
    intro i action hi
    have hlt : i < bs.length := by omega
    have hdrop : bs.drop i = bs[i] :: bs.drop (i + 1) := List.drop_eq_getElem_cons hlt
    have hread : heap_read h cfg.actions i = some bs[i] := by
      rw [heap_read_of_block h _ i bs hb]; simp [List.get?_eq_getElem?, hlt]
    have hb32 := h32 bs[i] (List.getElem_mem _)
    simp only [search_action, hread]
    have hmod : bs[i].tone % 4294967296 = bs[i].tone := Nat.mod_eq_of_lt hb32.1
    have htm : ((tone : Nat) : Int) % 4294967296 = (tone : Int) := by omega
    rw [hmod, htm]
    have hfb : first_binding (bs.drop i) tone =
        if bs[i].tone = tone then some bs[i] else first_binding (bs.drop (i + 1)) tone := by
      unfold first_binding
      rw [hdrop, List.find?_cons]
      by_cases hc : bs[i].tone = tone
      · simp only [hc, decide_True, if_true]
      · simp only [hc, decide_False, if_false]
    rw [hfb]
    by_cases hc : bs[i].tone = tone
    · simp only [hc, if_true]
    · have hc2 : ¬ ((bs[i].tone : Int) = (tone : Int)) := by exact_mod_cast hc
      simp only [hc2, hc, if_false]
      exact ih (i + 1) action (by omega)

theorem first_binding_append (pre post : List action_t) (b : action_t) (tone : Nat)
    (hpre : ∀ x ∈ pre, x.tone ≠ tone) (hb : b.tone = tone) :
    first_binding (pre ++ b :: post) tone = some b := by
  induction pre with
  | nil => simp [first_binding, hb]
  | cons x xs ih =>
    have hx : x.tone ≠ tone := hpre x (List.mem_cons_self _ _)
    have hxs : ∀ y ∈ xs, y.tone ≠ tone := fun y hy => hpre y (List.mem_cons_of_mem _ hy)
    have := ih hxs
    unfold first_binding at this ⊢
    rw [List.cons_append, List.find?_cons]
    simp only [hx, decide_False]
    exact this

theorem first_binding_none (bs : List action_t) (tone : Nat)
    (hbs : ∀ x ∈ bs, x.tone ≠ tone) : first_binding bs tone = none := by
  unfold first_binding
  rw [List.find?_eq_none]
  intro x hx
  simpa using hbs x hx

theorem search_action_first (h : Heap) (cfg : config_t) (bs : List action_t)
    (dwParam1 : Nat) (hcfg : holds_bindings h cfg bs) :
    search_action h cfg ((HIBYTE (LOWORD dwParam1) : Nat) : Int) cfg.number_actions 0 (-1) =
      some (match first_binding bs (dwParam1 / 256 % 256) with
            | some b => int_of_unsigned b.action
            | none => -1) := by
  obtain ⟨hb, hlen, h32⟩ := hcfg
  rw [HIBYTE_LOWORD]
  have := search_action_drop h cfg bs (dwParam1 / 256 % 256) hb h32
    (Nat.mod_lt _ (by norm_num)) cfg.number_actions 0 (-1) (by omega)
  simpa using this

theorem MidiInProc_note_on (h : Heap) (cfg : config_t) (bs : List action_t)
    (hMidiIn wMsg dwParam1 dwParam2 : Nat) (hcfg : holds_bindings h cfg bs)
    (hon : dwParam1 % 256 = 144) :
    MidiInProc h hMidiIn wMsg cfg dwParam1 dwParam2 =
      some (perform (match first_binding bs (dwParam1 / 256 % 256) with
                     | some b => int_of_unsigned b.action
                     | none => -1)) := by
  unfold MidiInProc
  simp only [LOBYTE_LOWORD, hon]
  rw [search_action_first h cfg bs dwParam1 hcfg]
  simp

theorem MidiInProc_eq (h : Heap) (cfg : config_t) (m q p r : Nat) :
    MidiInProc h m q cfg p r =
      if LOBYTE (LOWORD p) ≠ 144 then some []
      else (search_action h cfg ((HIBYTE (LOWORD p) : Nat) : Int) cfg.number_actions 0 (-1)).map
        perform := by
  unfold MidiInProc
  by_cases hf : LOBYTE (LOWORD p) = 144
  · have : ((LOBYTE (LOWORD p) : Nat) : Int) = 144 := by exact_mod_cast hf
    simp only [this, hf, ne_eq, not_true_eq_false, if_false]
    cases search_action h cfg ((HIBYTE (LOWORD p) : Nat) : Int) cfg.number_actions 0 (-1) <;> rfl
  · have : ((LOBYTE (LOWORD p) : Nat) : Int) ≠ 144 := by exact_mod_cast hf
    simp only [this, hf, ne_eq, not_false_eq_true, if_true]

theorem send_input_eq (key : Int) :
    send_input key =
      [Event.SendInput 1 [{ type := INPUT_KEYBOARD,
                            ki := { wVk := (key % 65536).toNat, wScan := 0, dwFlags := 0,
                                    time := 0, dwExtraInfo := 0 } }]] := by
  simp [send_input, SendInput]

theorem perform_submitted_le (action : Int) : (submitted (perform action)).length ≤ 1 := by
  unfold perform
  split_ifs <;> simp [send_input_eq, submitted]

/-- C1: for a configuration holding the bindings `bs` and a note-on event (low
byte of `dwParam1` equal to 144), `MidiInProc` resolves the event to the action
of the first binding in stored order whose tone is the tone byte (bits 8..15 of
`dwParam1`), whatever bindings follow it, and to "no action" (the initial value
`-1` of `action`, no call made) when no binding has that tone. -/
theorem MidiInProc_first_match (h : Heap) (cfg : config_t) (bs : List action_t)
    (hMidiIn wMsg dwParam1 dwParam2 : Nat) (hcfg : holds_bindings h cfg bs)
    (hon : dwParam1 % 256 = 144) :
    (∀ (pre post : List action_t) (b : action_t), bs = pre ++ b :: post →
        (∀ x ∈ pre, x.tone ≠ dwParam1 / 256 % 256) → b.tone = dwParam1 / 256 % 256 →
        search_action h cfg ((HIBYTE (LOWORD dwParam1) : Nat) : Int) cfg.number_actions 0 (-1) =
            some (int_of_unsigned b.action) ∧
          MidiInProc h hMidiIn wMsg cfg dwParam1 dwParam2 =
            some (perform (int_of_unsigned b.action))) ∧
      ((∀ x ∈ bs, x.tone ≠ dwParam1 / 256 % 256) →
        search_action h cfg ((HIBYTE (LOWORD dwParam1) : Nat) : Int) cfg.number_actions 0 (-1) =
            some (-1) ∧
          MidiInProc h hMidiIn wMsg cfg dwParam1 dwParam2 = some []) := by
  refine ⟨?_, ?_⟩
  · intro pre post b hbs hpre hb
    have hf := first_binding_append pre post b _ hpre hb
    rw [← hbs] at hf
    rw [search_action_first h cfg bs dwParam1 hcfg,
      MidiInProc_note_on h cfg bs hMidiIn wMsg dwParam1 dwParam2 hcfg hon, hf]
    exact ⟨rfl, rfl⟩
  · intro hnone
    have hf := first_binding_none bs _ hnone
    rw [search_action_first h cfg bs dwParam1 hcfg,
      MidiInProc_note_on h cfg bs hMidiIn wMsg dwParam1 dwParam2 hcfg hon, hf]
    exact ⟨rfl, by decide⟩

/-- Witness of C1: with the bindings `(60,2)`, `(62,0)`, a note-on for tone 60
sends the play/pause key and a note-on for tone 61 sends nothing. -/
theorem MidiInProc_first_match_witness :
    holds_bindings sample_heap sample_cfg [⟨60, 2⟩, ⟨62, 0⟩] ∧
      MidiInProc sample_heap 0 0 sample_cfg 15504 0 = some (send_input VK_MEDIA_PLAY_PAUSE) ∧
      MidiInProc sample_heap 0 0 sample_cfg 15760 0 = some [] :=
  have hs : holds_bindings sample_heap sample_cfg [⟨60, 2⟩, ⟨62, 0⟩] :=
    ⟨rfl, rfl, by decide⟩
  ⟨hs,
   ((MidiInProc_first_match sample_heap sample_cfg _ 0 0 15504 0 hs (by decide)).1
      [] [⟨62, 0⟩] ⟨60, 2⟩ rfl (by decide) (by decide)).2,
   ((MidiInProc_first_match sample_heap sample_cfg _ 0 0 15760 0 hs (by decide)).2
      (by decide)).2⟩

/-- C2: for every configuration and every raw event whose sub-kind byte (low
byte of the low word of `dwParam1`) is different from 144, `MidiInProc` returns
without making any call: no key is sent, even when the tone is bound. -/
theorem MidiInProc_filters_note_on (h : Heap) (cfg : config_t)
    (hMidiIn wMsg dwParam1 dwParam2 : Nat) (hne : LOBYTE (LOWORD dwParam1) ≠ 144) :
    MidiInProc h hMidiIn wMsg cfg dwParam1 dwParam2 = some [] := by
  unfold MidiInProc
  have : ((LOBYTE (LOWORD dwParam1) : Nat) : Int) ≠ 144 := by exact_mod_cast hne
  simp [this]

/-- Witness of C2: with the bindings `(60,2)`, `(62,0)`, a note-off event
(status 128) for the bound tone 60 makes no call. -/
theorem MidiInProc_filters_note_on_witness :
    LOBYTE (LOWORD 15488) = 128 ∧ HIBYTE (LOWORD 15488) = 60 ∧
      MidiInProc sample_heap 0 0 sample_cfg 15488 0 = some [] :=
  ⟨by decide, by decide, MidiInProc_filters_note_on sample_heap sample_cfg 0 0 15488 0 (by decide)⟩

/-- C3: when the tone of a note-on event resolves to a binding with the 32-bit
action value `a`, `MidiInProc` makes exactly the calls of one `send_input` with
the previous-track key for `a = 0`, the next-track key for `a = 1`, the
play/pause key for `a = 2`, and no call for every other `a`; one `send_input`
is one `SendInput` call, and no event submits more than one input. -/
theorem MidiInProc_action_mapping (h : Heap) (cfg : config_t) (bs : List action_t)
    (hMidiIn wMsg dwParam1 dwParam2 : Nat) (b : action_t) (hcfg : holds_bindings h cfg bs)
    (hon : dwParam1 % 256 = 144)
    (hres : first_binding bs (dwParam1 / 256 % 256) = some b) :
    (b.action = 0 →
        MidiInProc h hMidiIn wMsg cfg dwParam1 dwParam2 = some (send_input VK_MEDIA_PREV_TRACK)) ∧
      (b.action = 1 →
        MidiInProc h hMidiIn wMsg cfg dwParam1 dwParam2 = some (send_input VK_MEDIA_NEXT_TRACK)) ∧
      (b.action = 2 →
        MidiInProc h hMidiIn wMsg cfg dwParam1 dwParam2 = some (send_input VK_MEDIA_PLAY_PAUSE)) ∧
      (b.action ≠ 0 → b.action ≠ 1 → b.action ≠ 2 →
        MidiInProc h hMidiIn wMsg cfg dwParam1 dwParam2 = some []) ∧
      (∀ key : Int, (send_input key).length = 1) ∧
      (∀ (m q p r : Nat) (evs : List Event), MidiInProc h m q cfg p r = some evs →
        evs.length ≤ 1 ∧ (submitted evs).length ≤ 1) := by
  have hrun := MidiInProc_note_on h cfg bs hMidiIn wMsg dwParam1 dwParam2 hcfg hon
  rw [hres] at hrun
  simp only at hrun
  have hmem : b ∈ bs := by
    unfold first_binding at hres
    exact List.mem_of_find?_eq_some hres
  have h32 := (hcfg.2.2 b hmem).2
  refine ⟨?_, ?_, ?_, ?_, ?_, ?_⟩
  · intro ha
    rw [hrun, ha]; rfl
  · intro ha
    rw [hrun, ha]; rfl
  · intro ha
    rw [hrun, ha]; rfl
  · intro h0 h1 h2
    rw [hrun]
    by_cases hs : b.action < 2147483648
    · rw [int_of_unsigned_small _ hs]
      unfold perform
      have e0 : ¬ ((b.action : Int) = 0) := by exact_mod_cast h0
      have e1 : ¬ ((b.action : Int) = 1) := by exact_mod_cast h1
      have e2 : ¬ ((b.action : Int) = 2) := by exact_mod_cast h2
      simp only [e0, e1, e2, if_false]
    · have hneg := int_of_unsigned_large b.action (by omega) h32
      unfold perform
      have e0 : ¬ (int_of_unsigned b.action = 0) := by omega
      have e1 : ¬ (int_of_unsigned b.action = 1) := by omega
      have e2 : ¬ (int_of_unsigned b.action = 2) := by omega
      simp only [e0, e1, e2, if_false]
  · intro key
    simp [send_input_eq]
  · intro m q p r evs hev
    rw [MidiInProc_eq] at hev
    by_cases hf : LOBYTE (LOWORD p) = 144
    · rw [if_neg (not_not.mpr hf)] at hev
      cases hsa : search_action h cfg ((HIBYTE (LOWORD p) : Nat) : Int) cfg.number_actions 0 (-1) with
      | none => rw [hsa] at hev; cases hev
      | some a =>
        rw [hsa] at hev
        simp only [Option.map_some', Option.some.injEq] at hev
        subst hev
        refine ⟨?_, perform_submitted_le a⟩
        unfold perform
        split_ifs <;> simp [send_input_eq]
    · rw [if_pos hf] at hev
      cases hev
      simp [submitted]

/-- Witness of C3: a binding with the action value `4294967295`, which does
not fit a signed `int`, sends no key. -/
theorem MidiInProc_action_mapping_witness :
    holds_bindings [(4096, [⟨60, 4294967295⟩])] ⟨4096, 0, 1⟩ [⟨60, 4294967295⟩] ∧
      MidiInProc [(4096, [⟨60, 4294967295⟩])] 0 0 ⟨4096, 0, 1⟩ 15504 0 = some [] :=
  have hs : holds_bindings [(4096, [⟨60, 4294967295⟩])] ⟨4096, 0, 1⟩ [⟨60, 4294967295⟩] :=
    ⟨rfl, rfl, by decide⟩
  ⟨hs, (MidiInProc_action_mapping [(4096, [⟨60, 4294967295⟩])] ⟨4096, 0, 1⟩ _ 0 0 15504 0
      ⟨60, 4294967295⟩ hs (by decide) (by decide)).2.2.2.1 (by decide) (by decide) (by decide)⟩

/-- C8: two invocations of `MidiInProc` on the same configuration whose
`dwParam1` agree on their low 16 bits (sub-kind byte and tone byte) make the
same calls, whatever the other bits of `dwParam1`, `wMsg`, `dwParam2` and
`hMidiIn` are. -/
theorem MidiInProc_depends_on_low_word (h : Heap) (cfg : config_t)
    (hMidiIn wMsg dwParam1 dwParam2 hMidiIn2 wMsg2 dwParam1b dwParam2b : Nat)
    (hlow : dwParam1 % 65536 = dwParam1b % 65536) :
    MidiInProc h hMidiIn wMsg cfg dwParam1 dwParam2 =
      MidiInProc h hMidiIn2 wMsg2 cfg dwParam1b dwParam2b := by
  have hw : LOWORD dwParam1 = LOWORD dwParam1b := hlow
  unfold MidiInProc
  rw [hw]

/-- Witness of C8: a note-on for tone 60 with velocity 0 and one with velocity
127, upper bits set, and other `hMidiIn`, `wMsg`, `dwParam2` make the same
calls. -/
theorem MidiInProc_depends_on_low_word_witness :
    15504 % 65536 = (4294967296 + 127 * 65536 + 15504) % 65536 ∧
      MidiInProc sample_heap 0 0 sample_cfg 15504 0 =
        MidiInProc sample_heap 7 963 sample_cfg (4294967296 + 127 * 65536 + 15504) 99 :=
  ⟨by decide, MidiInProc_depends_on_low_word sample_heap sample_cfg 0 0 15504 0 7 963
    (4294967296 + 127 * 65536 + 15504) 99 (by decide)⟩

/-- Counterexample to C9: for the play/pause key, `send_input` submits a
single key-press event and no key-release event, so the submitted sequence
does not contain a press followed by a release. -/
theorem send_input_no_release :
    submitted (send_input VK_MEDIA_PLAY_PAUSE) =
        [{ type := INPUT_KEYBOARD,
           ki := { wVk := 179, wScan := 0, dwFlags := 0, time := 0, dwExtraInfo := 0 } }] ∧
      press_then_release VK_MEDIA_PLAY_PAUSE (submitted (send_input VK_MEDIA_PLAY_PAUSE)) = false := by
  decide

/-- C9, amended: for every key, `send_input` makes one `SendInput` call that
submits exactly one input event, a key press (flags `0`, no
`KEYEVENTF_KEYUP`) for that key, and no key-release event for any key. -/
theorem send_input_press_only (key : Int) :
    send_input key =
        [Event.SendInput 1 [{ type := INPUT_KEYBOARD,
                              ki := { wVk := (key % 65536).toNat, wScan := 0, dwFlags := 0,
                                      time := 0, dwExtraInfo := 0 } }]] ∧
      (∃ x, submitted (send_input key) = [x] ∧ is_key_press key x = true) ∧
      (∀ x ∈ submitted (send_input key), ∀ k : Int, is_key_release k x = false) ∧
      press_then_release key (submitted (send_input key)) = false := by
  rw [send_input_eq]
  refine ⟨rfl, ⟨_, rfl, ?_⟩, ?_, ?_⟩
  · simp [is_key_press, INPUT_KEYBOARD]
  · intro x hx k
    simp only [submitted, List.append_nil, List.mem_singleton] at hx
    subst hx
    simp [is_key_release]
  · simp [submitted, press_then_release]

/-! ## Lemmas on the scanner -/

theorem convert_unsigned_small (v : Nat) (h : v < 4294967296) :
    convert_unsigned false v = v := by
  unfold convert_unsigned
  have h1 : ¬ (18446744073709551616 ≤ v) := by omega
  simp [h1, Nat.mod_eq_of_lt h]

theorem ne_of_isdigit (c x : Char) (h : isdigit c = true) (hx : isdigit x = false) : c ≠ x := by
  rintro rfl
  rw [h] at hx
  cases hx

theorem isspace_of_isdigit (c : Char) (h : isdigit c = true) : isspace c = false := by
  unfold isspace
  have h1 := ne_of_isdigit c ' ' h (by decide)
  have h2 := ne_of_isdigit c '\t' h (by decide)
  have h3 := ne_of_isdigit c '\n' h (by decide)
  have h4 := ne_of_isdigit c '\x0b' h (by decide)
  have h5 := ne_of_isdigit c '\x0c' h (by decide)
  have h6 := ne_of_isdigit c '\r' h (by decide)
  simp [h1, h2, h3, h4, h5, h6]

theorem scan_digits_append (ds rest : List Char) (hds : ∀ c ∈ ds, isdigit c = true)
    (hrest : no_digit_ahead rest = true) :
    ∀ acc : Nat, scan_digits acc (ds ++ rest) =
      (ds.foldl (fun a c => a * 10 + (c.toNat - 48)) acc, rest) := by
  induction ds with
  | nil =>
    intro acc
    cases rest with
    | nil => rfl
    | cons c r =>
      have : isdigit c = false := by simpa [no_digit_ahead] using hrest
      simp [scan_digits, this]
  | cons c cs ih =>
    intro acc
    have hc : isdigit c = true := hds c (List.mem_cons_self _ _)
    have hcs : ∀ x ∈ cs, isdigit x = true := fun x hx => hds x (List.mem_cons_of_mem _ hx)
    simp only [List.cons_append, scan_digits, hc, if_true, List.foldl_cons]
    exact ih hcs _

theorem skip_space_of_isdigit (c : Char) (cs : List Char) (h : isdigit c = true) :
    skip_space (c :: cs) = c :: cs := by
  simp [skip_space, isspace_of_isdigit c h]

theorem scan_unsigned_numeral (ds rest : List Char) (hds : is_numeral ds)
    (hrest : no_digit_ahead rest = true) :
    scan_unsigned (ds ++ rest) = Conv.value (convert_unsigned false (decimal_value ds)) rest := by
  obtain ⟨hne, hall⟩ := hds
  cases ds with
  | nil => exact absurd rfl hne
  | cons c cs =>
    have hc : isdigit c = true := hall c (List.mem_cons_self _ _)
    have hminus : c ≠ '-' := ne_of_isdigit c '-' hc (by decide)
    have hplus : c ≠ '+' := ne_of_isdigit c '+' hc (by decide)
    have hd := scan_digits_append (c :: cs) rest hall hrest 0
    rw [List.cons_append] at hd ⊢
    unfold scan_unsigned
    rw [skip_space_of_isdigit c _ hc]
    simp only [hminus, hplus, if_false]
    unfold scan_magnitude
    simp only [hc, if_true, hd]
    rfl

theorem scan_lits (s : List Char) (fmt : List Directive) (input : List Char)
    (assigned : List Nat) :
    scan (s.map Directive.lit ++ fmt) (s ++ input) assigned = scan fmt input assigned := by
  induction s with
  | nil => rfl
  | cons c cs ih => simp [scan, ih]

theorem scan_space (fmt : List Directive) (input : List Char) (assigned : List Nat) :
    scan (Directive.space :: fmt) input assigned = scan fmt (skip_space input) assigned := by
  simp [scan]

theorem scan_conv_u (fmt : List Directive) (ds rest : List Char) (assigned : List Nat)
    (hds : is_numeral ds) (hrest : no_digit_ahead rest = true) :
    scan (Directive.conv_u :: fmt) (ds ++ rest) assigned =
      scan fmt rest (assigned ++ [convert_unsigned false (decimal_value ds)]) := by
  simp [scan, scan_unsigned_numeral ds rest hds hrest]

theorem header_directives :
    parse_format header_format.toList =
      "[Common]".toList.map Directive.lit ++ (Directive.space ::
        ("InputDevice=".toList.map Directive.lit ++ (Directive.conv_u :: Directive.space ::
          ("NumberActions=".toList.map Directive.lit ++ (Directive.conv_u :: Directive.space ::
            Directive.space :: ("[Actions]".toList.map Directive.lit ++ [Directive.space])))))) := by
  decide

theorem binding_directives :
    parse_format binding_format.toList =
      [Directive.conv_u, Directive.lit '=', Directive.conv_u, Directive.space] := by
  decide

theorem config_text_eq (d n : List Char) (lines : List (List Char × List Char)) :
    config_text d n lines =
      "[Common]".toList ++ ('\n' :: ("InputDevice=".toList ++ (d ++ ('\n' ::
        ("NumberActions=".toList ++ (n ++ ('\n' :: '\n' :: ("[Actions]".toList ++
          ('\n' :: actions_text lines))))))))) := by
  rfl

theorem skip_space_actions_text (lines : List (List Char × List Char))
    (hl : ∀ l ∈ lines, is_numeral l.1) :
    skip_space (actions_text lines) = actions_text lines := by
  cases lines with
  | nil => rfl
  | cons l ls =>
    obtain ⟨hne, hall⟩ := hl l (List.mem_cons_self _ _)
    unfold actions_text
    cases hl1 : l.1 with
    | nil => exact absurd hl1 hne
    | cons c cs =>
      have hc : isdigit c = true := hall c (by rw [hl1]; exact List.mem_cons_self _ _)
      rw [List.cons_append]
      exact skip_space_of_isdigit c _ hc

theorem scan_lit_match (c : Char) (fmt : List Directive) (input : List Char)
    (assigned : List Nat) :
    scan (Directive.lit c :: fmt) (c :: input) assigned = scan fmt input assigned := by
  simp [scan]

theorem skip_space_newline (r : List Char) : skip_space ('\n' :: r) = skip_space r := by
  simp [skip_space, isspace]

theorem skip_space_stop (s r : List Char)
    (hs : ∃ c cs, s = c :: cs ∧ isspace c = false) : skip_space (s ++ r) = s ++ r := by
  obtain ⟨c, cs, rfl, hc⟩ := hs
  simp [skip_space, hc]

theorem fscanf_s_header (d n : List Char) (lines : List (List Char × List Char))
    (hd : is_numeral d) (hn : is_numeral n) (hl : ∀ l ∈ lines, is_numeral l.1) :
    fscanf_s (config_text d n lines) header_format =
      ⟨2, [convert_unsigned false (decimal_value d), convert_unsigned false (decimal_value n)],
        actions_text lines⟩ := by
  unfold fscanf_s
  rw [header_directives, config_text_eq, scan_lits, scan_space, skip_space_newline,
    skip_space_stop "InputDevice=".toList _ ⟨_, _, rfl, by decide⟩, scan_lits,
    scan_conv_u _ d _ _ hd (by rfl), scan_space, skip_space_newline,
    skip_space_stop "NumberActions=".toList _ ⟨_, _, rfl, by decide⟩, scan_lits,
    scan_conv_u _ n _ _ hn (by rfl), scan_space, scan_space, skip_space_newline,
    skip_space_newline, skip_space_stop "[Actions]".toList _ ⟨_, _, rfl, by decide⟩,
    skip_space_stop "[Actions]".toList _ ⟨_, _, rfl, by decide⟩, scan_lits, scan_space,
    skip_space_newline, skip_space_actions_text lines hl]
  rfl

theorem fscanf_s_binding (t a rest : List Char) (ht : is_numeral t) (ha : is_numeral a)
    (hrest : skip_space rest = rest) :
    fscanf_s (t ++ '=' :: (a ++ '\n' :: rest)) binding_format =
      ⟨2, [convert_unsigned false (decimal_value t), convert_unsigned false (decimal_value a)],
        rest⟩ := by
  unfold fscanf_s
  rw [binding_directives, scan_conv_u _ t _ _ ht (by rfl), scan_lit_match,
    scan_conv_u _ a _ _ ha (by rfl), scan_space, skip_space_newline, hrest]
  rfl

/-! ## Lemmas on `load_config` -/

theorem dialogs_append (s t : List Event) : dialogs (s ++ t) = dialogs s ++ dialogs t := by
  induction s with
  | nil => rfl
  | cons e es ih => cases e <;> simp [dialogs, ih]

theorem store_action_head (p i : Nat) (blk : List action_t) (h0 : Heap) (vals : List Nat) :
    ∃ blk2, store_action ((p, blk) :: h0) p i vals = (p, blk2) :: h0 := by
  unfold store_action
  split <;> simp [heap_update]

theorem heap_free_head (p : Nat) (blk : List action_t) (h0 : Heap) :
    heap_free ((p, blk) :: h0) p = h0 := by
  simp [heap_free]

theorem read_actions_spec (cfg : config_t) (h0 : Heap) :
    ∀ (n i : Nat) (file : List Char) (w : World) (blk : List action_t),
      w.heap = (cfg.actions, blk) :: h0 →
      (read_actions cfg n i file w).2.file_open = w.file_open ∧
      (bindings_malformed n file = true →
        (read_actions cfg n i file w).1 = false ∧
        (read_actions cfg n i file w).2.heap = h0 ∧
        (read_actions cfg n i file w).2.trace =
          w.trace ++ [Event.TaskDialog "Invalid config file.", Event.free cfg.actions]) ∧
      (bindings_malformed n file = false →
        (read_actions cfg n i file w).1 = true ∧
        (read_actions cfg n i file w).2.trace = w.trace ∧
        ∃ blk2, (read_actions cfg n i file w).2.heap = (cfg.actions, blk2) :: h0) := by
  intro n
  induction n with
  | zero =>
    intro i file w blk hw
    simp [read_actions, bindings_malformed, hw]
  | succ n ih =>
    intro i file w blk hw
    obtain ⟨blk1, hblk1⟩ := store_action_head cfg.actions i blk h0 (fscanf_s file binding_format).assigned
    by_cases hret : (fscanf_s file binding_format).ret = 2
    · have hstep : read_actions cfg (n + 1) i file w =
          read_actions cfg n (i + 1) (fscanf_s file binding_format).rest
            { w with heap := (store_action w.heap cfg.actions i
                (fscanf_s file binding_format).assigned) } := by
        simp [read_actions, hret]
      have hm : bindings_malformed (n + 1) file =
          bindings_malformed n (fscanf_s file binding_format).rest := by
        simp [bindings_malformed, hret]
      rw [hstep, hm]
      have := ih (i + 1) (fscanf_s file binding_format).rest
        { w with heap := (store_action w.heap cfg.actions i
            (fscanf_s file binding_format).assigned) } blk1 (by simp [hw, hblk1])
      simpa using this
    · have hstep : read_actions cfg (n + 1) i file w =
          (false, free cfg.actions (error_msg "Invalid config file."
            { w with heap := (store_action w.heap cfg.actions i
                (fscanf_s file binding_format).assigned) })) := by
        simp [read_actions, hret]
      have hm : bindings_malformed (n + 1) file = true := by
        simp [bindings_malformed, hret]
      rw [hstep, hm]
      simp [free, error_msg, hw, hblk1, heap_free_head]

theorem modify_at_append (f : action_t → action_t) (done tl : List action_t) (x : action_t) :
    modify_at f (done ++ x :: tl) done.length = done ++ f x :: tl := by
  induction done with
  | nil => rfl
  | cons d ds ih => simp [modify_at, ih]

theorem read_actions_lines (cfg : config_t) (h0 : Heap) :
    ∀ (lines : List (List Char × List Char)) (done : List action_t) (w : World),
      (∀ l ∈ lines, is_uint32_numeral l.1 ∧ is_uint32_numeral l.2) →
      w.heap = (cfg.actions, done ++ List.replicate lines.length ⟨0, 0⟩) :: h0 →
      read_actions cfg lines.length done.length (actions_text lines) w =
        (true, { w with heap := (cfg.actions, done ++ bindings_of lines) :: h0 }) := by
  intro lines
  induction lines with
  | nil =>
    intro done w _ hw
    simp only [List.length_nil, List.replicate_zero, List.append_nil] at hw
    cases w
    simp only at hw
    subst hw
    simp [read_actions, bindings_of]
  | cons l ls ih =>
    intro done w hl hw
    have hls : ∀ x ∈ ls, is_uint32_numeral x.1 ∧ is_uint32_numeral x.2 :=
      fun x hx => hl x (List.mem_cons_of_mem _ hx)
    obtain ⟨⟨ht, ht32⟩, ⟨ha, ha32⟩⟩ := hl l (List.mem_cons_self _ _)
    have hscan := fscanf_s_binding l.1 l.2 (actions_text ls) ht ha
      (skip_space_actions_text ls (fun x hx => (hls x hx).1.1))
    rw [convert_unsigned_small _ ht32, convert_unsigned_small _ ha32] at hscan
    have htext : actions_text (l :: ls) = l.1 ++ '=' :: (l.2 ++ '\n' :: actions_text ls) := rfl
    rw [List.length_cons, htext]
    simp only [read_actions, hscan, ne_eq, not_true_eq_false, if_false]
    have hheap : store_action w.heap cfg.actions done.length [decimal_value l.1, decimal_value l.2] =
        (cfg.actions, (done ++ [⟨decimal_value l.1, decimal_value l.2⟩]) ++
          List.replicate ls.length ⟨0, 0⟩) :: h0 := by
      rw [hw, List.length_cons, List.replicate_succ]
      simp [store_action, heap_update, modify_at_append]
    have := ih (done ++ [⟨decimal_value l.1, decimal_value l.2⟩])
      { w with heap := (store_action w.heap cfg.actions done.length
          [decimal_value l.1, decimal_value l.2]) } hls hheap
    rw [List.length_append, List.length_singleton] at this
    rw [this]
    simp [bindings_of]

theorem bindings_malformed_succ (n : Nat) (file : List Char) :
    bindings_malformed (n + 1) file =
      (decide ((fscanf_s file binding_format).ret ≠ 2) ||
        bindings_malformed n (fscanf_s file binding_format).rest) := rfl

theorem bindings_malformed_short :
    ∀ (lines : List (List Char × List Char)) (m : Nat),
      (∀ l ∈ lines, is_numeral l.1 ∧ is_numeral l.2) →
      bindings_malformed (lines.length + (m + 1)) (actions_text lines) = true := by
  intro lines
  induction lines with
  | nil =>
    intro m _
    have : (fscanf_s [] binding_format).ret ≠ 2 := by decide
    simp [bindings_malformed, actions_text, this]
  | cons l ls ih =>
    intro m hl
    have hls : ∀ x ∈ ls, is_numeral x.1 ∧ is_numeral x.2 :=
      fun x hx => hl x (List.mem_cons_of_mem _ hx)
    obtain ⟨ht, ha⟩ := hl l (List.mem_cons_self _ _)
    have hscan := fscanf_s_binding l.1 l.2 (actions_text ls) ht ha
      (skip_space_actions_text ls (fun x hx => (hls x hx).1))
    have htext : actions_text (l :: ls) = l.1 ++ '=' :: (l.2 ++ '\n' :: actions_text ls) := rfl
    have hlen : (l :: ls).length + (m + 1) = (ls.length + (m + 1)) + 1 := by
      simp only [List.length_cons]; omega
    rw [hlen, htext, bindings_malformed_succ, hscan]
    simpa using ih m hls

theorem load_config_open_failed (env : Env) (cfg : config_t) (w : World)
    (hopen : env.fopen_ret ≠ 0) :
    ∃ s, load_config env cfg w =
      (false, cfg, { w with trace := w.trace ++
        [Event.fopen_s "config.ini" "rt" env.fopen_ret, Event.TaskDialog s] }) := by
  have h2 : ¬ (ENOENT = 0) := by decide
  by_cases hent : env.fopen_ret = ENOENT
  · exact ⟨"An error occured trying to open the config file:\nFile \"config.ini\" not found.",
      by simp [load_config, h2, hent, error_msg]⟩
  · exact ⟨"An unknown error occured trying to open the config file.",
      by simp [load_config, hopen, hent, error_msg]⟩

theorem load_config_header_failed (env : Env) (cfg : config_t) (w : World)
    (hopen : env.fopen_ret = 0) (hret : (fscanf_s env.file_text header_format).ret ≠ 2) :
    load_config env cfg w =
      (false, store_header cfg (fscanf_s env.file_text header_format).assigned,
        { file_open := true, heap := w.heap, trace := w.trace ++
          [Event.fopen_s "config.ini" "rt" 0, Event.TaskDialog "Invalid config file."] }) := by
  simp [load_config, hopen, hret, error_msg]

theorem load_config_alloc_failed (env : Env) (cfg : config_t) (w : World)
    (hopen : env.fopen_ret = 0) (hret : (fscanf_s env.file_text header_format).ret = 2)
    (halloc : env.calloc_ret = 0) :
    ∃ s, s ≠ "Invalid config file." ∧
      s = (if env.errno = ENOMEM then "Unable to allocate memory: Not enough memory left."
        else "An unknown error occurred trying to allocate memory.") ∧
      load_config env cfg w =
      (false,
        { store_header cfg (fscanf_s env.file_text header_format).assigned with actions := 0 },
        { file_open := true, heap := w.heap, trace := w.trace ++
          [Event.fopen_s "config.ini" "rt" 0,
           Event.calloc (store_header cfg (fscanf_s env.file_text header_format).assigned).number_actions
             sizeof_action_t 0,
           Event.TaskDialog s] }) := by
  by_cases herr : env.errno = ENOMEM
  · exact ⟨"Unable to allocate memory: Not enough memory left.", (by decide), (by simp [herr]),
      by simp [load_config, hopen, hret, halloc, herr, error_msg, calloc]⟩
  · exact ⟨"An unknown error occurred trying to allocate memory.", (by decide),
      (by simp [herr]),
      by simp [load_config, hopen, hret, halloc, herr, error_msg, calloc]⟩

theorem load_config_loop (env : Env) (cfg : config_t) (w : World)
    (hopen : env.fopen_ret = 0) (hret : (fscanf_s env.file_text header_format).ret = 2)
    (halloc : env.calloc_ret ≠ 0) :
    load_config env cfg w =
      ((read_actions
          { store_header cfg (fscanf_s env.file_text header_format).assigned with
            actions := env.calloc_ret }
          (store_header cfg (fscanf_s env.file_text header_format).assigned).number_actions 0
          (fscanf_s env.file_text header_format).rest
          { file_open := true,
            heap := (env.calloc_ret, List.replicate
              (store_header cfg (fscanf_s env.file_text header_format).assigned).number_actions
              ⟨0, 0⟩) :: w.heap,
            trace := w.trace ++ [Event.fopen_s "config.ini" "rt" 0,
              Event.calloc
                (store_header cfg (fscanf_s env.file_text header_format).assigned).number_actions
                sizeof_action_t env.calloc_ret] }).1,
        { store_header cfg (fscanf_s env.file_text header_format).assigned with
          actions := env.calloc_ret },
        (read_actions
          { store_header cfg (fscanf_s env.file_text header_format).assigned with
            actions := env.calloc_ret }
          (store_header cfg (fscanf_s env.file_text header_format).assigned).number_actions 0
          (fscanf_s env.file_text header_format).rest
          { file_open := true,
            heap := (env.calloc_ret, List.replicate
              (store_header cfg (fscanf_s env.file_text header_format).assigned).number_actions
              ⟨0, 0⟩) :: w.heap,
            trace := w.trace ++ [Event.fopen_s "config.ini" "rt" 0,
              Event.calloc
                (store_header cfg (fscanf_s env.file_text header_format).assigned).number_actions
                sizeof_action_t env.calloc_ret] }).2) := by
  simp [load_config, hopen, hret, halloc, calloc]

theorem load_config_loop_spec (env : Env) (cfg : config_t) (w : World)
    (hopen : env.fopen_ret = 0) (hret : (fscanf_s env.file_text header_format).ret = 2)
    (halloc : env.calloc_ret ≠ 0) :
    (load_config env cfg w).2.1 =
        { store_header cfg (fscanf_s env.file_text header_format).assigned with
          actions := env.calloc_ret } ∧
      (load_config env cfg w).2.2.file_open = true ∧
      (bindings_malformed
          (store_header cfg (fscanf_s env.file_text header_format).assigned).number_actions
          (fscanf_s env.file_text header_format).rest = true →
        (load_config env cfg w).1 = false ∧
        (load_config env cfg w).2.2.heap = w.heap ∧
        (load_config env cfg w).2.2.trace = w.trace ++
          [Event.fopen_s "config.ini" "rt" 0,
           Event.calloc
             (store_header cfg (fscanf_s env.file_text header_format).assigned).number_actions
             sizeof_action_t env.calloc_ret,
           Event.TaskDialog "Invalid config file.", Event.free env.calloc_ret]) ∧
      (bindings_malformed
          (store_header cfg (fscanf_s env.file_text header_format).assigned).number_actions
          (fscanf_s env.file_text header_format).rest = false →
        (load_config env cfg w).1 = true ∧
        (load_config env cfg w).2.2.trace = w.trace ++
          [Event.fopen_s "config.ini" "rt" 0,
           Event.calloc
             (store_header cfg (fscanf_s env.file_text header_format).assigned).number_actions
             sizeof_action_t env.calloc_ret]) := by
  rw [load_config_loop env cfg w hopen hret halloc]
  have hs := read_actions_spec
    { store_header cfg (fscanf_s env.file_text header_format).assigned with
      actions := env.calloc_ret } w.heap
    (store_header cfg (fscanf_s env.file_text header_format).assigned).number_actions 0
    (fscanf_s env.file_text header_format).rest
    { file_open := true,
      heap := (env.calloc_ret, List.replicate
        (store_header cfg (fscanf_s env.file_text header_format).assigned).number_actions
        ⟨0, 0⟩) :: w.heap,
      trace := w.trace ++ [Event.fopen_s "config.ini" "rt" 0,
        Event.calloc
          (store_header cfg (fscanf_s env.file_text header_format).assigned).number_actions
          sizeof_action_t env.calloc_ret] } _ rfl
  obtain ⟨hfo, hbad, hgood⟩ := hs
  refine ⟨rfl, hfo, ?_, ?_⟩
  · intro hm
    obtain ⟨h1, h2, h3⟩ := hbad hm
    refine ⟨h1, h2, ?_⟩
    rw [h3]
    simp
  · intro hm
    obtain ⟨h1, h2, _⟩ := hgood hm
    exact ⟨h1, h2⟩

theorem load_config_effects (env : Env) (cfg : config_t) (w : World) :
    (load_config env cfg w).2.2.file_open = (if env.fopen_ret = 0 then true else w.file_open) ∧
      (∃ t, (load_config env cfg w).2.2.trace =
          w.trace ++ Event.fopen_s "config.ini" "rt" env.fopen_ret :: t ∧
        (∀ e ∈ t, is_dialog_or_heap e = true) ∧
        (dialogs t).length = if (load_config env cfg w).1 = true then 0 else 1) ∧
      ((load_config env cfg w).1 = false → (load_config env cfg w).2.2.heap = w.heap) ∧
      (env.fopen_ret ≠ 0 → (load_config env cfg w).2.1 = cfg) ∧
      (env.fopen_ret = 0 →
        (load_config env cfg w).2.1 =
            store_header cfg (fscanf_s env.file_text header_format).assigned ∨
          (load_config env cfg w).2.1 =
            { store_header cfg (fscanf_s env.file_text header_format).assigned with
              actions := env.calloc_ret }) := by
  by_cases hopen : env.fopen_ret = 0
  · by_cases hret : (fscanf_s env.file_text header_format).ret = 2
    · by_cases halloc : env.calloc_ret = 0
      · obtain ⟨s, _, _, hl⟩ := load_config_alloc_failed env cfg w hopen hret halloc
        rw [hl]
        refine ⟨by simp [hopen], ⟨_, by simp [hopen]; rfl, ?_, ?_⟩, fun _ => rfl,
          fun h => absurd hopen h, fun _ => Or.inr (by simp [halloc])⟩
        · intro e he
          simp only [List.mem_cons, List.mem_singleton, List.not_mem_nil, or_false] at he
          rcases he with rfl | rfl <;> rfl
        · simp [dialogs]
      · obtain ⟨hc, hfo, hbad, hgood⟩ := load_config_loop_spec env cfg w hopen hret halloc
        refine ⟨by simp [hopen, hfo], ?_, ?_, fun h => absurd hopen h, fun _ => Or.inr hc⟩
        · cases hm : bindings_malformed
              (store_header cfg (fscanf_s env.file_text header_format).assigned).number_actions
              (fscanf_s env.file_text header_format).rest with
          | true =>
            obtain ⟨h1, _, h3⟩ := hbad hm
            refine ⟨_, by rw [h3, hopen], ?_, ?_⟩
            · intro e he
              simp only [List.mem_cons, List.mem_singleton, List.not_mem_nil, or_false] at he
              rcases he with rfl | rfl | rfl <;> rfl
            · simp [dialogs, h1]
          | false =>
            obtain ⟨h1, h2⟩ := hgood hm
            refine ⟨_, by rw [h2, hopen], ?_, ?_⟩
            · intro e he
              simp only [List.mem_singleton] at he
              subst he
              rfl
            · simp [dialogs, h1]
        · intro hf
          cases hm : bindings_malformed
              (store_header cfg (fscanf_s env.file_text header_format).assigned).number_actions
              (fscanf_s env.file_text header_format).rest with
          | true => exact (hbad hm).2.1
          | false => rw [(hgood hm).1] at hf; cases hf
    · rw [load_config_header_failed env cfg w hopen hret]
      refine ⟨by simp [hopen], ⟨_, by simp [hopen]; rfl, ?_, ?_⟩, fun _ => rfl,
        fun h => absurd hopen h, fun _ => Or.inl rfl⟩
      · intro e he
        simp only [List.mem_singleton] at he
        subst he
        rfl
      · simp [dialogs]
  · obtain ⟨s, hl⟩ := load_config_open_failed env cfg w hopen
    rw [hl]
    refine ⟨by simp [hopen], ⟨_, rfl, ?_, ?_⟩, fun _ => rfl, fun _ => rfl,
      fun h => absurd h hopen⟩
    · intro e he
      simp only [List.mem_singleton] at he
      subst he
      rfl
    · simp [dialogs]

/-! ## The scanner against the grammar it accepts -/

theorem skip_space_split (s : List Char) :
    ∃ ws, is_blank ws ∧ s = ws ++ skip_space s := by
  induction s with
  | nil => exact ⟨[], (fun c hc => by cases hc), rfl⟩
  | cons c cs ih =>
    by_cases hc : isspace c = true
    · obtain ⟨ws, hws, hs⟩ := ih
      refine ⟨c :: ws, ?_, ?_⟩
      · intro x hx
        rcases List.mem_cons.mp hx with h | h
        · rw [h]; exact hc
        · exact hws x h
      · simp only [skip_space, hc, if_true, List.cons_append]
        rw [← hs]
    · refine ⟨[], (fun x hx => by cases hx), ?_⟩
      simp [skip_space, hc]

theorem skip_space_head (s : List Char) (c : Char) (r : List Char)
    (h : skip_space s = c :: r) : isspace c = false := by
  induction s with
  | nil => simp [skip_space] at h
  | cons x xs ih =>
    by_cases hx : isspace x = true
    · simp only [skip_space, hx, if_true] at h
      exact ih h
    · simp only [skip_space, hx] at h
      simp only [Bool.false_eq_true, if_false, List.cons.injEq] at h
      rw [← h.1]
      simpa using hx

theorem skip_space_blank (ws r : List Char) (hws : is_blank ws) :
    skip_space (ws ++ r) = skip_space r := by
  induction ws with
  | nil => rfl
  | cons c cs ih =>
    have hc : isspace c = true := hws c (List.mem_cons_self _ _)
    have hcs : is_blank cs := fun x hx => hws x (List.mem_cons_of_mem _ hx)
    simp only [List.cons_append, skip_space, hc, if_true]
    exact ih hcs

theorem skip_space_idem (s : List Char) : skip_space (skip_space s) = skip_space s := by
  cases h : skip_space s with
  | nil => rfl
  | cons c r =>
    have := skip_space_head s c r h
    simp [skip_space, this]

theorem scan_digits_split (s : List Char) :
    ∀ acc : Nat, ∃ ds, (∀ c ∈ ds, isdigit c = true) ∧ s = ds ++ (scan_digits acc s).2 ∧
      no_digit_ahead (scan_digits acc s).2 = true ∧
      (scan_digits acc s).1 = ds.foldl (fun a c => a * 10 + (c.toNat - 48)) acc := by
  induction s with
  | nil =>
    intro acc
    exact ⟨[], (fun c hc => by cases hc), rfl, rfl, rfl⟩
  | cons c cs ih =>
    intro acc
    by_cases hc : isdigit c = true
    · obtain ⟨ds, hds, hs, hn, hv⟩ := ih (acc * 10 + (c.toNat - 48))
      refine ⟨c :: ds, ?_, ?_, ?_, ?_⟩
      · intro x hx
        rcases List.mem_cons.mp hx with h | h
        · rw [h]; exact hc
        · exact hds x h
      · simp only [scan_digits, hc, if_true, List.cons_append]
        rw [← hs]
      · simp only [scan_digits, hc, if_true]
        exact hn
      · simp only [scan_digits, hc, if_true, List.foldl_cons]
        exact hv
    · refine ⟨[], (fun x hx => by cases hx), ?_, ?_, ?_⟩
      · simp [scan_digits, hc]
      · simp [scan_digits, hc, no_digit_ahead]
      · simp [scan_digits, hc]

theorem scan_magnitude_sound (negative : Bool) (s : List Char) (v : Nat) (rest : List Char)
    (h : scan_magnitude negative s = Conv.value v rest) :
    ∃ ds, s = ds ++ rest ∧ is_numeral ds ∧ no_digit_ahead rest = true ∧
      v = convert_unsigned negative (decimal_value ds) := by
  cases s with
  | nil => simp [scan_magnitude] at h
  | cons c cs =>
    by_cases hc : isdigit c = true
    · simp only [scan_magnitude, hc, if_true, Conv.value.injEq] at h
      obtain ⟨ds, hds, hs, hn, hv⟩ := scan_digits_split (c :: cs) 0
      rw [h.2] at hs hn
      rw [hv] at h
      refine ⟨ds, hs, ⟨?_, hds⟩, hn, h.1.symm⟩
      intro hnil
      rw [hnil] at hs
      simp only [List.nil_append] at hs
      rw [← hs] at hn
      simp [no_digit_ahead, hc] at hn
    · simp [scan_magnitude, hc] at h

theorem scan_unsigned_sound (s : List Char) (v : Nat) (rest : List Char)
    (h : scan_unsigned s = Conv.value v rest) : reads_unsigned s v rest := by
  obtain ⟨ws, hws, hs⟩ := skip_space_split s
  unfold scan_unsigned at h
  cases hk : skip_space s with
  | nil => rw [hk] at h; simp at h
  | cons c cs =>
    rw [hk] at h hs
    simp only at h
    by_cases hm : c = '-'
    · simp only [hm, if_true] at h
      obtain ⟨ds, hcs, hds, hn, hv⟩ := scan_magnitude_sound true cs v rest h
      refine ⟨ws, ['-'], ds, ?_, hws, Or.inr (Or.inr rfl), hds, hn, by simpa using hv⟩
      rw [hs, hm, hcs]
      rfl
    · by_cases hp : c = '+'
      · simp only [hm, hp, if_true, if_false] at h
        have hpm : ¬ ('+' = '-') := by decide
        simp only [hpm, if_false] at h
        obtain ⟨ds, hcs, hds, hn, hv⟩ := scan_magnitude_sound false cs v rest h
        refine ⟨ws, ['+'], ds, ?_, hws, Or.inr (Or.inl rfl), hds, hn, ?_⟩
        · rw [hs, hp, hcs]
          rfl
        · have : decide (['+'] = ['-']) = false := by decide
          rw [this]
          exact hv
      · simp only [hm, hp, if_false] at h
        obtain ⟨ds, hcs, hds, hn, hv⟩ := scan_magnitude_sound false (c :: cs) v rest h
        refine ⟨ws, [], ds, ?_, hws, Or.inl rfl, hds, hn, ?_⟩
        · rw [hs, hcs]
          rfl
        · have : decide (([] : List Char) = ['-']) = false := by decide
          rw [this]
          exact hv

theorem scan_magnitude_numeral (negative : Bool) (ds rest : List Char) (hds : is_numeral ds)
    (hrest : no_digit_ahead rest = true) :
    scan_magnitude negative (ds ++ rest) =
      Conv.value (convert_unsigned negative (decimal_value ds)) rest := by
  obtain ⟨hne, hall⟩ := hds
  cases ds with
  | nil => exact absurd rfl hne
  | cons c cs =>
    have hc : isdigit c = true := hall c (List.mem_cons_self _ _)
    have hd := scan_digits_append (c :: cs) rest hall hrest 0
    rw [List.cons_append] at hd ⊢
    unfold scan_magnitude
    simp only [hc, if_true, hd]
    rfl

theorem skip_space_nonblank (c : Char) (r : List Char) (hc : isspace c = false) :
    skip_space (c :: r) = c :: r := by
  simp [skip_space, hc]

theorem scan_unsigned_complete (s : List Char) (v : Nat) (rest : List Char)
    (h : reads_unsigned s v rest) : scan_unsigned s = Conv.value v rest := by
  obtain ⟨ws, sg, ds, hs, hws, hsg, hds, hn, hv⟩ := h
  rw [hs, hv]
  unfold scan_unsigned
  rw [skip_space_blank ws _ hws]
  rcases hsg with h0 | hp | hm
  · rw [h0, List.nil_append]
    have hdec : decide (([] : List Char) = ['-']) = false := by decide
    rw [hdec]
    obtain ⟨hne, hall⟩ := hds
    cases ds with
    | nil => exact absurd rfl hne
    | cons c cs =>
      have hc : isdigit c = true := hall c (List.mem_cons_self _ _)
      have hminus : c ≠ '-' := ne_of_isdigit c '-' hc (by decide)
      have hplus : c ≠ '+' := ne_of_isdigit c '+' hc (by decide)
      rw [List.cons_append, skip_space_of_isdigit c _ hc]
      simp only [hminus, hplus, if_false]
      rw [← List.cons_append]
      exact scan_magnitude_numeral false (c :: cs) rest ⟨hne, hall⟩ hn
  · rw [hp]
    have hdec : decide (['+'] = ['-']) = false := by decide
    rw [hdec, List.singleton_append, skip_space_nonblank '+' _ (by decide)]
    have h1 : ¬ ('+' = '-') := by decide
    simp only [h1, if_false, if_true]
    exact scan_magnitude_numeral false ds rest hds hn
  · rw [hm]
    have hdec : decide (['-'] = ['-']) = true := by decide
    rw [hdec, List.singleton_append, skip_space_nonblank '-' _ (by decide)]
    simp only [if_true]
    exact scan_magnitude_numeral true ds rest hds hn

theorem reads_unsigned_skip (s : List Char) (v : Nat) (rest : List Char)
    (h : reads_unsigned (skip_space s) v rest) : reads_unsigned s v rest := by
  obtain ⟨ws0, hws0, hs0⟩ := skip_space_split s
  obtain ⟨ws, sg, ds, hs, hws, hsg, hds, hn, hv⟩ := h
  refine ⟨ws0 ++ ws, sg, ds, ?_, ?_, hsg, hds, hn, hv⟩
  · rw [hs0, hs, List.append_assoc]
  · intro c hc
    rcases List.mem_append.mp hc with h | h
    · exact hws0 c h
    · exact hws c h

theorem input_failure_ret_ne (a : List Nat) (ha : a.length < 2) : input_failure_ret a ≠ 2 := by
  unfold input_failure_ret
  cases a with
  | nil => decide
  | cons x xs =>
    simp only [List.isEmpty_cons, Bool.false_eq_true, if_false]
    simp only [List.length_cons] at ha ⊢
    omega

theorem length_ne_two (a : List Nat) (ha : a.length < 2) : ((a.length : Nat) : Int) ≠ 2 := by
  omega

theorem scan_lits_cases (s : List Char) (fmt : List Directive) (a : List Nat)
    (ha : a.length < 2) :
    ∀ input : List Char, (∃ xs, input = s ++ xs) ∨
      ((scan (s.map Directive.lit ++ fmt) input a).assigned = a ∧
        (scan (s.map Directive.lit ++ fmt) input a).ret ≠ 2) := by
  induction s with
  | nil => intro input; exact Or.inl ⟨input, rfl⟩
  | cons c cs ih =>
    intro input
    cases input with
    | nil =>
      right
      simp only [List.map_cons, List.cons_append, scan]
      exact ⟨trivial, input_failure_ret_ne a ha⟩
    | cons x xs =>
      by_cases hx : x = c
      · subst hx
        rcases ih xs with ⟨ys, hys⟩ | h
        · left
          exact ⟨ys, by rw [hys]; rfl⟩
        · right
          simp only [List.map_cons, List.cons_append, scan_lit_match]
          exact h
      · right
        simp only [List.map_cons, List.cons_append, scan, hx, if_false]
        exact ⟨trivial, length_ne_two a ha⟩

theorem scan_conv_cases (fmt : List Directive) (input : List Char) (a : List Nat)
    (ha : a.length < 2) :
    (∃ v rest, scan_unsigned input = Conv.value v rest) ∨
      ((scan (Directive.conv_u :: fmt) input a).assigned = a ∧
        (scan (Directive.conv_u :: fmt) input a).ret ≠ 2) := by
  cases h : scan_unsigned input with
  | value v rest => exact Or.inl ⟨v, rest, rfl⟩
  | matching_failure rest =>
    right
    simp only [scan, h]
    exact ⟨trivial, length_ne_two a ha⟩
  | input_failure =>
    right
    simp only [scan, h]
    exact ⟨trivial, input_failure_ret_ne a ha⟩

theorem scan_conv_value (fmt : List Directive) (input : List Char) (a : List Nat) (v : Nat)
    (rest : List Char) (h : scan_unsigned input = Conv.value v rest) :
    scan (Directive.conv_u :: fmt) input a = scan fmt rest (a ++ [v]) := by
  simp [scan, h]

theorem scan_label (label : List Char) (a : List Nat) (ha : a ≠ []) :
    ∀ s : List Char, scan (label.map Directive.lit ++ [Directive.space]) s a =
      ⟨(a.length : Int), a, drop_label label s⟩ := by
  induction label with
  | nil =>
    intro s
    simp [scan, drop_label]
  | cons l ls ih =>
    intro s
    cases s with
    | nil =>
      cases a with
      | nil => exact absurd rfl ha
      | cons x xs => simp [scan, drop_label, input_failure_ret]
    | cons c cs =>
      by_cases hc : c = l
      · subst hc
        simp only [List.map_cons, List.cons_append, scan_lit_match, drop_label, if_true]
        exact ih cs
      · simp [scan, drop_label, hc]

theorem header_directives_staged :
    parse_format header_format.toList =
      "[Common]".toList.map Directive.lit ++ (Directive.space ::
        ("InputDevice=".toList.map Directive.lit ++ (Directive.conv_u :: count_directives))) := by
  decide

theorem count_complete (d N : Nat) (rest ws s tail : List Char)
    (hrest : rest = ws ++ ("NumberActions=".toList ++ s)) (hws : is_blank ws)
    (hN : reads_unsigned s N tail) :
    scan count_directives rest [d] = ⟨2, [d, N], after_header tail⟩ := by
  unfold count_directives
  rw [scan_space, hrest, skip_space_blank ws _ hws,
    skip_space_stop "NumberActions=".toList _ ⟨_, _, rfl, by decide⟩, scan_lits,
    scan_conv_value _ _ _ N tail (scan_unsigned_complete s N tail hN), scan_space, scan_space,
    skip_space_idem, scan_label _ _ (by simp)]
  rfl

theorem count_stage (d : Nat) (rest : List Char) :
    (∃ ws s N tail, rest = ws ++ ("NumberActions=".toList ++ s) ∧ is_blank ws ∧
        reads_unsigned s N tail) ∨
      ((scan count_directives rest [d]).assigned = [d] ∧
        (scan count_directives rest [d]).ret ≠ 2) := by
  obtain ⟨ws, hws, hsplit⟩ := skip_space_split rest
  have hstep : scan count_directives rest [d] =
      scan ("NumberActions=".toList.map Directive.lit ++ (Directive.conv_u :: Directive.space ::
        Directive.space :: ("[Actions]".toList.map Directive.lit ++ [Directive.space])))
        (skip_space rest) [d] := by
    unfold count_directives
    rw [scan_space]
  rcases scan_lits_cases "NumberActions=".toList (Directive.conv_u :: Directive.space ::
      Directive.space :: ("[Actions]".toList.map Directive.lit ++ [Directive.space])) [d]
      (by simp) (skip_space rest) with ⟨xs, hxs⟩ | hfail
  · rcases scan_conv_cases (Directive.space :: Directive.space ::
        ("[Actions]".toList.map Directive.lit ++ [Directive.space])) xs [d] (by simp) with
      ⟨N, tail, hv⟩ | hfail
    · left
      refine ⟨ws, xs, N, tail, ?_, hws, scan_unsigned_sound xs N tail hv⟩
      rw [← hxs]
      exact hsplit
    · right
      rw [hstep, hxs, scan_lits]
      exact hfail
  · right
    rw [hstep]
    exact hfail

theorem device_complete (text : List Char) (d : Nat) (rest : List Char)
    (h : device_begins text d rest) :
    fscanf_s text header_format = scan count_directives rest [d] := by
  obtain ⟨ws, s, htext, hws, hd⟩ := h
  unfold fscanf_s
  rw [header_directives_staged, htext, scan_lits, scan_space, skip_space_blank ws _ hws,
    skip_space_stop "InputDevice=".toList _ ⟨_, _, rfl, by decide⟩, scan_lits,
    scan_conv_value _ _ _ d rest (scan_unsigned_complete s d rest hd)]
  rfl

theorem device_stage (text : List Char) :
    (∃ d rest, device_begins text d rest) ∨
      ((fscanf_s text header_format).assigned = [] ∧
        (fscanf_s text header_format).ret ≠ 2) := by
  unfold fscanf_s
  rw [header_directives_staged]
  rcases scan_lits_cases "[Common]".toList (Directive.space ::
      ("InputDevice=".toList.map Directive.lit ++ (Directive.conv_u :: count_directives))) []
      (by simp) text with ⟨x1, hx1⟩ | hfail
  · obtain ⟨ws, hws, hsplit⟩ := skip_space_split x1
    rcases scan_lits_cases "InputDevice=".toList (Directive.conv_u :: count_directives) []
        (by simp) (skip_space x1) with ⟨x2, hx2⟩ | hfail
    · rcases scan_conv_cases count_directives x2 [] (by simp) with ⟨d, rest, hv⟩ | hfail
      · left
        refine ⟨d, rest, ws, x2, ?_, hws, scan_unsigned_sound x2 d rest hv⟩
        rw [hx1, ← hx2]
        congr 1
      · right
        rw [hx1, scan_lits, scan_space, hx2, scan_lits]
        exact hfail
    · right
      rw [hx1, scan_lits, scan_space]
      exact hfail
  · right
    exact hfail

theorem header_complete (text : List Char) (d N : Nat) (tail : List Char)
    (h : header_begins text d N tail) :
    fscanf_s text header_format = ⟨2, [d, N], after_header tail⟩ := by
  obtain ⟨rest, ws, s, hdev, hrest, hws, hN⟩ := h
  rw [device_complete text d rest hdev]
  exact count_complete d N rest ws s tail hrest hws hN

theorem header_sound (text : List Char)
    (h : (fscanf_s text header_format).ret = 2) :
    ∃ d N tail, header_begins text d N tail := by
  rcases device_stage text with ⟨d, rest, hdev⟩ | hfail
  · rcases count_stage d rest with ⟨ws, s, N, tail, hrest, hws, hN⟩ | hfail
    · exact ⟨d, N, tail, rest, ws, s, hdev, hrest, hws, hN⟩
    · rw [device_complete text d rest hdev] at h
      exact absurd h hfail.2
  · exact absurd h hfail.2

theorem header_failed (text : List Char)
    (h : (fscanf_s text header_format).ret ≠ 2) :
    ((¬ ∃ d rest, device_begins text d rest) ∧ (fscanf_s text header_format).assigned = []) ∨
      (∃ d rest, device_begins text d rest ∧ (fscanf_s text header_format).assigned = [d]) := by
  rcases device_stage text with ⟨d, rest, hdev⟩ | hfail
  · right
    refine ⟨d, rest, hdev, ?_⟩
    rcases count_stage d rest with ⟨ws, s, N, tail, hrest, hws, hN⟩ | hfail
    · have := header_complete text d N tail ⟨rest, ws, s, hdev, hrest, hws, hN⟩
      rw [this] at h
      exact absurd rfl h
    · rw [device_complete text d rest hdev]
      exact hfail.1
  · left
    refine ⟨?_, hfail.1⟩
    rintro ⟨d, rest, hdev⟩
    have hA := hfail.1
    rw [device_complete text d rest hdev] at hA
    rcases count_stage d rest with ⟨ws, s, N, tail, hrest, hws, hN⟩ | hf
    · rw [count_complete d N rest ws s tail hrest hws hN] at hA
      cases hA
    · rw [hf.1] at hA
      cases hA

theorem device_unique (text : List Char) (d1 d2 : Nat) (r1 r2 : List Char)
    (h1 : device_begins text d1 r1) (h2 : device_begins text d2 r2) : d1 = d2 := by
  have e1 := device_complete text d1 r1 h1
  have e2 := device_complete text d2 r2 h2
  have hA : (scan count_directives r1 [d1]).assigned = (scan count_directives r2 [d2]).assigned := by
    rw [← e1, ← e2]
  have p1 : ∃ m, (scan count_directives r1 [d1]).assigned = d1 :: m := by
    rcases count_stage d1 r1 with ⟨ws, s, N, tail, hrest, hws, hN⟩ | hf
    · exact ⟨[N], by rw [count_complete d1 N r1 ws s tail hrest hws hN]⟩
    · exact ⟨[], hf.1⟩
  have p2 : ∃ m, (scan count_directives r2 [d2]).assigned = d2 :: m := by
    rcases count_stage d2 r2 with ⟨ws, s, N, tail, hrest, hws, hN⟩ | hf
    · exact ⟨[N], by rw [count_complete d2 N r2 ws s tail hrest hws hN]⟩
    · exact ⟨[], hf.1⟩
  obtain ⟨m1, q1⟩ := p1
  obtain ⟨m2, q2⟩ := p2
  rw [q1, q2] at hA
  exact (List.cons.inj hA).1

theorem binding_sound (s : List Char) (h : (fscanf_s s binding_format).ret = 2) :
    ∃ t a s1 s2, reads_unsigned s t ('=' :: s1) ∧ reads_unsigned s1 a s2 ∧
      (fscanf_s s binding_format).rest = skip_space s2 := by
  unfold fscanf_s at h ⊢
  rw [binding_directives] at h ⊢
  rcases scan_conv_cases [Directive.lit '=', Directive.conv_u, Directive.space] s [] (by simp)
    with ⟨t, r1, hv1⟩ | hfail
  · rw [scan_conv_value _ _ _ t r1 hv1] at h ⊢
    rcases scan_lits_cases ['='] [Directive.conv_u, Directive.space] ([] ++ [t]) (by simp) r1
      with ⟨s1, hs1⟩ | hfail
    · have hr1 : r1 = '=' :: s1 := hs1
      rw [hr1, scan_lit_match] at h ⊢
      rcases scan_conv_cases [Directive.space] s1 ([] ++ [t]) (by simp) with
        ⟨a, s2, hv2⟩ | hfail
      · rw [scan_conv_value _ _ _ a s2 hv2]
        refine ⟨t, a, s1, s2, ?_, scan_unsigned_sound s1 a s2 hv2, ?_⟩
        · rw [← hr1]
          exact scan_unsigned_sound s t r1 hv1
        · simp [scan]
      · exact absurd h hfail.2
    · exact absurd h hfail.2
  · exact absurd h hfail.2

theorem items_begin_skip : ∀ (n : Nat) (s : List Char),
    items_begin n (skip_space s) → items_begin n s := by
  intro n s h
  cases n with
  | zero => trivial
  | succ n =>
    obtain ⟨t, a, s1, s2, ht, ha, hrest⟩ := h
    exact ⟨t, a, s1, s2, reads_unsigned_skip s t _ ht, ha, hrest⟩

theorem items_sound : ∀ (n : Nat) (s : List Char),
    bindings_malformed n s = false → items_begin n s := by
  intro n
  induction n with
  | zero => intro s _; trivial
  | succ n ih =>
    intro s h
    rw [bindings_malformed_succ] at h
    simp only [Bool.or_eq_false_iff, decide_eq_false_iff_not, ne_eq, not_not] at h
    obtain ⟨t, a, s1, s2, ht, ha, hrest⟩ := binding_sound s h.1
    have h2 := h.2
    rw [hrest] at h2
    exact ⟨t, a, s1, s2, ht, ha, items_begin_skip n s2 (ih _ h2)⟩

theorem header_unique (text : List Char) (d1 N1 d2 N2 : Nat) (t1 t2 : List Char)
    (h1 : header_begins text d1 N1 t1) (h2 : header_begins text d2 N2 t2) :
    d1 = d2 ∧ N1 = N2 ∧ after_header t1 = after_header t2 := by
  have e1 := header_complete text d1 N1 t1 h1
  have e2 := header_complete text d2 N2 t2 h2
  rw [e1] at e2
  simp only [ScanResult.mk.injEq, List.cons.injEq, and_true, true_and] at e2
  exact ⟨e2.1.1, e2.1.2, e2.2⟩

theorem short_env_header :
    header_begins short_env.file_text 3 3 "\n\n[Actions]\n60=2\n62=0\n".toList :=
  ⟨"\nNumberActions=3\n\n[Actions]\n60=2\n62=0\n".toList, ['\n'],
    "3\n\n[Actions]\n60=2\n62=0\n".toList,
    ⟨['\n'], "3\nNumberActions=3\n\n[Actions]\n60=2\n62=0\n".toList, by decide, by decide,
      ⟨[], [], ['3'], by decide, by decide, by decide, by decide, by decide, by decide⟩⟩,
    by decide, by decide,
    ⟨[], [], ['3'], by decide, by decide, by decide, by decide, by decide, by decide⟩⟩

theorem reads_unsigned_skipped (s : List Char) (v : Nat) (rest : List Char)
    (h : reads_unsigned s v rest) : reads_unsigned (skip_space s) v rest := by
  have hc := scan_unsigned_complete s v rest h
  apply scan_unsigned_sound
  unfold scan_unsigned at hc ⊢
  rw [skip_space_idem]
  exact hc

theorem binding_complete (s s1 s2 : List Char) (t a : Nat)
    (ht : reads_unsigned s t ('=' :: s1)) (ha : reads_unsigned s1 a s2) :
    fscanf_s s binding_format = ⟨2, [t, a], skip_space s2⟩ := by
  unfold fscanf_s
  rw [binding_directives, scan_conv_value _ _ _ t _ (scan_unsigned_complete s t _ ht),
    scan_lit_match, scan_conv_value _ _ _ a _ (scan_unsigned_complete s1 a s2 ha), scan_space]
  rfl

theorem items_begin_skipped : ∀ (n : Nat) (s : List Char),
    items_begin n s → items_begin n (skip_space s) := by
  intro n s h
  cases n with
  | zero => trivial
  | succ n =>
    obtain ⟨t, a, s1, s2, ht, ha, hrest⟩ := h
    exact ⟨t, a, s1, s2, reads_unsigned_skipped s t _ ht, ha, hrest⟩

theorem items_complete : ∀ (n : Nat) (s : List Char),
    items_begin n s → bindings_malformed n s = false := by
  intro n
  induction n with
  | zero => intro s _; rfl
  | succ n ih =>
    intro s h
    obtain ⟨t, a, s1, s2, ht, ha, hrest⟩ := h
    rw [bindings_malformed_succ, binding_complete s s1 s2 t a ht ha]
    simpa using ih (skip_space s2) (items_begin_skipped n s2 hrest)

theorem load_config_true_iff (env : Env) (cfg : config_t) (w : World)
    (hopen : env.fopen_ret = 0) :
    (load_config env cfg w).1 = true ↔
      env.calloc_ret ≠ 0 ∧
        ∃ d N tail, header_begins env.file_text d N tail ∧ items_begin N (after_header tail) := by
  constructor
  · intro htrue
    by_cases hret : (fscanf_s env.file_text header_format).ret = 2
    · obtain ⟨d, N, tail, hb⟩ := header_sound env.file_text hret
      have hscan := header_complete env.file_text d N tail hb
      by_cases halloc : env.calloc_ret = 0
      · obtain ⟨s, _, _, hl⟩ := load_config_alloc_failed env cfg w hopen hret halloc
        rw [hl] at htrue
        cases htrue
      · obtain ⟨_, _, hbd, _⟩ := load_config_loop_spec env cfg w hopen hret halloc
        rw [hscan] at hbd
        refine ⟨halloc, d, N, tail, hb, ?_⟩
        cases hm : bindings_malformed N (after_header tail) with
        | true =>
          rw [(hbd hm).1] at htrue
          cases htrue
        | false => exact items_sound N (after_header tail) hm
    · rw [load_config_header_failed env cfg w hopen hret] at htrue
      cases htrue
  · rintro ⟨halloc, d, N, tail, hb, hitems⟩
    have hscan := header_complete env.file_text d N tail hb
    have hret : (fscanf_s env.file_text header_format).ret = 2 := by rw [hscan]
    obtain ⟨_, _, _, hgood⟩ := load_config_loop_spec env cfg w hopen hret halloc
    rw [hscan] at hgood
    exact (hgood (items_complete N (after_header tail) hitems)).1

/-! ## Lemmas on `main` -/

theorem main_cases (env : Env) (cfg : config_t) :
    ((load_config env cfg initial_world).1 = false →
      main env cfg = (Outcome.exit EXIT_FAILURE, (load_config env cfg initial_world).2.1,
        (load_config env cfg initial_world).2.2)) ∧
    ((load_config env cfg initial_world).1 = true → env.midiInOpen_ret ≠ MMSYSERR_NOERROR →
      (main env cfg).1 = Outcome.exit EXIT_FAILURE ∧
      (main env cfg).2.2.trace = (load_config env cfg initial_world).2.2.trace ++
        [Event.midiInOpen (load_config env cfg initial_world).2.1.input_device env.midiInOpen_ret,
         Event.TaskDialog "Unable to connect to the input device."]) ∧
    ((load_config env cfg initial_world).1 = true → env.midiInOpen_ret = MMSYSERR_NOERROR →
      env.midiInStart_ret ≠ MMSYSERR_NOERROR →
      (main env cfg).1 = Outcome.exit EXIT_FAILURE ∧
      (main env cfg).2.2.trace = (load_config env cfg initial_world).2.2.trace ++
        [Event.midiInOpen (load_config env cfg initial_world).2.1.input_device env.midiInOpen_ret,
         Event.midiInStart env.midiInStart_ret,
         Event.TaskDialog "Unable to start listening."]) ∧
    ((load_config env cfg initial_world).1 = true → env.midiInOpen_ret = MMSYSERR_NOERROR →
      env.midiInStart_ret = MMSYSERR_NOERROR →
      Event.WaitOnAddress ∈ (main env cfg).2.2.trace) := by
  refine ⟨?_, ?_, ?_, ?_⟩
  · intro hl
    simp [main, hl]
  · intro hl ho
    simp [main, hl, ho, error_msg]
  · intro hl ho hs
    simp [main, hl, ho, hs, error_msg]
  · intro hl ho hs
    cases hw : env.wait_returns <;> simp [main, hl, ho, hs, hw, free]

theorem not_mem_of_dialog_or_heap (t : List Event) (e : Event)
    (ht : ∀ x ∈ t, is_dialog_or_heap x = true) (he : is_dialog_or_heap e = false) : e ∉ t := by
  intro hmem
  rw [ht e hmem] at he
  cases he

/-! ## Loading the configuration -/

/-- Counterexample to C4: the text of `oom_env` follows the grammar (device 3,
two bindings `60=2` and `62=0`), yet `load_config` returns `false`, because
`calloc` returned `NULL`. -/
theorem load_config_well_formed_alloc_failure :
    oom_env.fopen_ret = 0 ∧
      oom_env.file_text = config_text "3".toList "2".toList
        [("60".toList, "2".toList), ("62".toList, "0".toList)] ∧
      (load_config oom_env garbage_cfg initial_world).1 = false ∧
      dialogs (load_config oom_env garbage_cfg initial_world).2.2.trace =
        ["Unable to allocate memory: Not enough memory left."] := by
  decide

/-- C4, amended: for every config text that follows the grammar (`[Common]`,
`InputDevice=d`, `NumberActions=N`, `[Actions]`, then `N` lines `t_i=a_i`, all
numbers 32-bit unsigned decimal numerals), when the file opens and the
allocation of the bindings buffer succeeds, `load_config` returns `true`, with
`input_device = d`, `number_actions = N`, and `actions` pointing to exactly the
`N` bindings `(t_i, a_i)` in file order. -/
theorem load_config_well_formed (env : Env) (cfg : config_t) (w : World)
    (d n : List Char) (lines : List (List Char × List Char))
    (hopen : env.fopen_ret = 0) (halloc : env.calloc_ret ≠ 0)
    (htext : env.file_text = config_text d n lines)
    (hd : is_uint32_numeral d) (hn : is_uint32_numeral n)
    (hl : ∀ l ∈ lines, is_uint32_numeral l.1 ∧ is_uint32_numeral l.2)
    (hN : decimal_value n = lines.length) :
    (load_config env cfg w).1 = true ∧
      (load_config env cfg w).2.1.input_device = decimal_value d ∧
      (load_config env cfg w).2.1.number_actions = lines.length ∧
      (bindings_of lines).length = lines.length ∧
      holds_bindings (load_config env cfg w).2.2.heap (load_config env cfg w).2.1
        (bindings_of lines) ∧
      (load_config env cfg w).2.2.heap =
        ((load_config env cfg w).2.1.actions, bindings_of lines) :: w.heap := by
  have hscan := fscanf_s_header d n lines hd.1 hn.1 (fun l h => (hl l h).1.1)
  rw [convert_unsigned_small _ hd.2, convert_unsigned_small _ hn.2, ← htext, hN] at hscan
  have hret : (fscanf_s env.file_text header_format).ret = 2 := by rw [hscan]
  have hrun := read_actions_lines
    { actions := env.calloc_ret, input_device := decimal_value d,
      number_actions := lines.length } w.heap lines []
    { file_open := true,
      heap := (env.calloc_ret, List.replicate lines.length ⟨0, 0⟩) :: w.heap,
      trace := w.trace ++ [Event.fopen_s "config.ini" "rt" 0,
        Event.calloc lines.length sizeof_action_t env.calloc_ret] } hl (by simp)
  simp only [List.length_nil, List.nil_append] at hrun
  have key : load_config env cfg w =
      (true,
        { actions := env.calloc_ret, input_device := decimal_value d,
          number_actions := lines.length },
        { file_open := true, heap := (env.calloc_ret, bindings_of lines) :: w.heap,
          trace := w.trace ++ [Event.fopen_s "config.ini" "rt" 0,
            Event.calloc lines.length sizeof_action_t env.calloc_ret] }) := by
    rw [load_config_loop env cfg w hopen hret halloc]
    simp only [hscan, store_header]
    rw [hrun]
  rw [key]
  refine ⟨rfl, rfl, rfl, by simp [bindings_of], ⟨by simp [heap_block], by simp [bindings_of], ?_⟩,
    rfl⟩
  intro b hb
  simp only [bindings_of, List.mem_map] at hb
  obtain ⟨l, hlm, rfl⟩ := hb
  exact ⟨(hl l hlm).1.2, (hl l hlm).2.2⟩

/-- Witness of C4: the sample file (device 3, bindings `60=2`, `62=0`) loads
into exactly these two bindings when `calloc` returns the address 4096. -/
theorem load_config_well_formed_witness :
    (load_config sample_env garbage_cfg initial_world).1 = true ∧
      (load_config sample_env garbage_cfg initial_world).2.1.input_device = 3 ∧
      (load_config sample_env garbage_cfg initial_world).2.1.number_actions = 2 ∧
      (load_config sample_env garbage_cfg initial_world).2.2.heap =
        [(4096, [⟨60, 2⟩, ⟨62, 0⟩])] :=
  have h := load_config_well_formed sample_env garbage_cfg initial_world "3".toList "2".toList
    [("60".toList, "2".toList), ("62".toList, "0".toList)] (by decide) (by decide) (by decide)
    (by decide) (by decide) (by decide) (by decide)
  ⟨h.1, h.2.1, h.2.2.1, by decide⟩

/-- Counterexample to C5: three texts on which the claim fails.  The text of
`one_line_env` declares two bindings and has one binding line, `60=2 62=0`, yet
`load_config` returns `true` with both bindings.  The text of `wrap_env`
declares 4294967296 bindings and has one binding line, yet `load_config`
returns `true` with `number_actions = 0`.  The text of `huge_env` declares
4294967295 bindings and has two binding lines; `load_config` returns `false`,
but with the allocation error and not with "Invalid config file.". -/
theorem load_config_short_accepted :
    (load_config one_line_env garbage_cfg initial_world).1 = true ∧
      (load_config one_line_env garbage_cfg initial_world).2.1 =
        { actions := 4096, input_device := 3, number_actions := 2 } ∧
      (load_config one_line_env garbage_cfg initial_world).2.2.heap =
        [(4096, [⟨60, 2⟩, ⟨62, 0⟩])] ∧
      (load_config wrap_env garbage_cfg initial_world).1 = true ∧
      (load_config wrap_env garbage_cfg initial_world).2.1 =
        { actions := 4096, input_device := 3, number_actions := 0 } ∧
      huge_env.file_text = config_text "3".toList "4294967295".toList
        [("60".toList, "2".toList), ("62".toList, "0".toList)] ∧
      (load_config huge_env garbage_cfg initial_world).1 = false ∧
      dialogs (load_config huge_env garbage_cfg initial_world).2.2.trace =
        ["Unable to allocate memory: Not enough memory left."] := by
  decide

/-- C5, amended: let the file open.  If the text does not begin with a header
that yields two unsigned integers (`[Common]`, `InputDevice=` and an unsigned
integer, `NumberActions=` and an unsigned integer, any white space between the
parts), `load_config` returns `false` with the one dialog "Invalid config
file." and allocates nothing.  If it does, with `N` the `unsigned int` stored
for `NumberActions`, and the text after the header and the label `[Actions]`
does not begin with `N` binding items `tone=action` (white space, not
necessarily a line break, between items), as for every text of the grammar with
fewer binding lines than a 32-bit `NumberActions` declares, then `load_config`
returns `false` and leaves the heap as it was: when `calloc` succeeded, the
dialog is "Invalid config file." and the buffer is freed after it; when
`calloc` returns `NULL`, the allocation error is shown instead and no binding
item is read. -/
theorem load_config_malformed (env : Env) (cfg : config_t) (w : World)
    (hopen : env.fopen_ret = 0)
    (hbad : (¬ ∃ d N tail, header_begins env.file_text d N tail) ∨
      (∃ d N tail, header_begins env.file_text d N tail ∧
        ¬ items_begin N (after_header tail)) ∨
      (∃ d n lines, env.file_text = config_text d n lines ∧ is_numeral d ∧
        is_uint32_numeral n ∧ (∀ l ∈ lines, is_numeral l.1 ∧ is_numeral l.2) ∧
        lines.length < decimal_value n)) :
    (load_config env cfg w).1 = false ∧
      (load_config env cfg w).2.2.heap = w.heap ∧
      ((¬ ∃ d N tail, header_begins env.file_text d N tail) →
        (load_config env cfg w).2.2.trace = w.trace ++
          [Event.fopen_s "config.ini" "rt" 0, Event.TaskDialog "Invalid config file."]) ∧
      (∀ d N tail, header_begins env.file_text d N tail → env.calloc_ret ≠ 0 →
        (load_config env cfg w).2.2.trace = w.trace ++
          [Event.fopen_s "config.ini" "rt" 0, Event.calloc N sizeof_action_t env.calloc_ret,
           Event.TaskDialog "Invalid config file.", Event.free env.calloc_ret]) ∧
      (∀ d N tail, header_begins env.file_text d N tail → env.calloc_ret = 0 →
        (load_config env cfg w).2.2.trace = w.trace ++
          [Event.fopen_s "config.ini" "rt" 0, Event.calloc N sizeof_action_t 0,
           Event.TaskDialog
             (if env.errno = ENOMEM then "Unable to allocate memory: Not enough memory left."
              else "An unknown error occurred trying to allocate memory.")]) := by
  by_cases hret : (fscanf_s env.file_text header_format).ret = 2
  · obtain ⟨d, N, tail, hb⟩ := header_sound env.file_text hret
    have hscan := header_complete env.file_text d N tail hb
    have hm : bindings_malformed N (after_header tail) = true := by
      rcases hbad with h | ⟨d2, N2, tail2, hb2, hni⟩ | ⟨d2, n, lines, htext, hd, hn, hl, hlt⟩
      · exact absurd ⟨d, N, tail, hb⟩ h
      · obtain ⟨_, hN, ht⟩ := header_unique env.file_text d N d2 N2 tail tail2 hb hb2
        cases hc : bindings_malformed N (after_header tail) with
        | true => rfl
        | false =>
          have := items_sound N (after_header tail) hc
          rw [hN, ht] at this
          exact absurd this hni
      · have hs2 := fscanf_s_header d2 n lines hd hn.1 (fun l h => (hl l h).1)
        rw [convert_unsigned_small _ hn.2, ← htext, hscan] at hs2
        simp only [ScanResult.mk.injEq, List.cons.injEq, and_true, true_and] at hs2
        rw [hs2.1.2, hs2.2]
        obtain ⟨m, hm⟩ : ∃ m, decimal_value n = lines.length + (m + 1) :=
          ⟨decimal_value n - lines.length - 1, by omega⟩
        rw [hm]
        exact bindings_malformed_short lines m hl
    have hno : ¬ ¬ ∃ d N tail, header_begins env.file_text d N tail :=
      fun h => h ⟨d, N, tail, hb⟩
    by_cases halloc : env.calloc_ret = 0
    · obtain ⟨s, _, hs, hl⟩ := load_config_alloc_failed env cfg w hopen hret halloc
      rw [hl]
      refine ⟨rfl, rfl, fun h => absurd h hno, fun _ _ _ _ h => absurd halloc h, ?_⟩
      intro d2 N2 tail2 hb2 _
      obtain ⟨_, hN, _⟩ := header_unique env.file_text d N d2 N2 tail tail2 hb hb2
      rw [hscan, ← hN, ← hs]
      rfl
    · obtain ⟨_, _, hbd, _⟩ := load_config_loop_spec env cfg w hopen hret halloc
      rw [hscan] at hbd
      obtain ⟨h1, h2, h3⟩ := hbd hm
      refine ⟨h1, h2, fun h => absurd h hno, ?_, fun _ _ _ _ h => absurd h halloc⟩
      intro d2 N2 tail2 hb2 _
      obtain ⟨_, hN, _⟩ := header_unique env.file_text d N d2 N2 tail tail2 hb hb2
      rw [h3, ← hN]
      rfl
  · have hnone : ¬ ∃ d N tail, header_begins env.file_text d N tail := by
      rintro ⟨d, N, tail, hb⟩
      rw [header_complete env.file_text d N tail hb] at hret
      exact hret rfl
    rw [load_config_header_failed env cfg w hopen hret]
    exact ⟨rfl, rfl, fun _ => rfl, fun d N tail hb _ => absurd ⟨d, N, tail, hb⟩ hnone,
      fun d N tail hb _ => absurd ⟨d, N, tail, hb⟩ hnone⟩

/-- Witness of C5: `NumberActions=3` followed by only two binding lines fails
with "Invalid config file." and frees the buffer allocated at address 4096. -/
theorem load_config_malformed_witness :
    short_env.file_text = config_text "3".toList "3".toList
        [("60".toList, "2".toList), ("62".toList, "0".toList)] ∧
      (load_config short_env garbage_cfg initial_world).1 = false ∧
      (load_config short_env garbage_cfg initial_world).2.2.heap = [] ∧
      (load_config short_env garbage_cfg initial_world).2.2.trace =
        [Event.fopen_s "config.ini" "rt" 0, Event.calloc 3 8 4096,
         Event.TaskDialog "Invalid config file.", Event.free 4096] :=
  have h := load_config_malformed short_env garbage_cfg initial_world (by decide)
    (Or.inr (Or.inr ⟨"3".toList, "3".toList,
      [("60".toList, "2".toList), ("62".toList, "0".toList)],
      by decide, by decide, by decide, by decide, by decide⟩))
  ⟨by decide, h.1, h.2.1, h.2.2.2.1 3 3 _ short_env_header (by decide)⟩

/-- Counterexample to C6: three failed loads after which the caller's
`config_t` differs from its value before the call: a header that supplies only
`InputDevice` (the field `input_device` is overwritten), an allocation failure
(header values written, `actions` set to `NULL`), and a missing binding line
(header values written, `actions` holds the address of the freed block). -/
theorem load_config_failed_not_atomic :
    (load_config half_header_env garbage_cfg initial_world).1 = false ∧
      (load_config half_header_env garbage_cfg initial_world).2.1 =
        { actions := 77, input_device := 5, number_actions := 99 } ∧
      (load_config oom_env garbage_cfg initial_world).1 = false ∧
      (load_config oom_env garbage_cfg initial_world).2.1 =
        { actions := 0, input_device := 3, number_actions := 2 } ∧
      (load_config short_env garbage_cfg initial_world).1 = false ∧
      (load_config short_env garbage_cfg initial_world).2.1 =
        { actions := 4096, input_device := 3, number_actions := 3 } ∧
      heap_block (load_config short_env garbage_cfg initial_world).2.2.heap 4096 = none ∧
      (load_config half_header_env garbage_cfg initial_world).2.1 ≠ garbage_cfg := by
  decide

/-- C6, amended: for every input on which `load_config` returns `false`, the
heap is as before the call, and the caller's `config_t` is equal to its value
before the call when the file could not be opened.  When the header does not
yield two unsigned integers, `actions` and `number_actions` keep their old
values and `input_device` holds the number of `InputDevice=` if the text
supplies it, its old value otherwise.  When the header yields `d` and `N`, the
`config_t` is `{NULL, d, N}` after an allocation failure, and `{p, d, N}` after
a malformed or missing binding item, where `p` is the address `calloc`
returned, freed again before the return. -/
theorem load_config_failure_state (env : Env) (cfg : config_t) (w : World)
    (hfail : (load_config env cfg w).1 = false) :
    (load_config env cfg w).2.2.heap = w.heap ∧
      (env.fopen_ret ≠ 0 → (load_config env cfg w).2.1 = cfg) ∧
      (env.fopen_ret = 0 → (¬ ∃ d N tail, header_begins env.file_text d N tail) →
        (load_config env cfg w).2.1.actions = cfg.actions ∧
        (load_config env cfg w).2.1.number_actions = cfg.number_actions ∧
        (∀ d rest, device_begins env.file_text d rest →
          (load_config env cfg w).2.1.input_device = d) ∧
        ((¬ ∃ d rest, device_begins env.file_text d rest) →
          (load_config env cfg w).2.1.input_device = cfg.input_device)) ∧
      (env.fopen_ret = 0 → ∀ d N tail, header_begins env.file_text d N tail →
        (env.calloc_ret = 0 →
          (load_config env cfg w).2.1 = { actions := 0, input_device := d, number_actions := N }) ∧
        (env.calloc_ret ≠ 0 →
          (load_config env cfg w).2.1 =
            { actions := env.calloc_ret, input_device := d, number_actions := N } ∧
          (load_config env cfg w).2.2.trace = w.trace ++
            [Event.fopen_s "config.ini" "rt" 0, Event.calloc N sizeof_action_t env.calloc_ret,
             Event.TaskDialog "Invalid config file.", Event.free env.calloc_ret])) := by
  obtain ⟨_, _, hheap, hcfg, _⟩ := load_config_effects env cfg w
  refine ⟨hheap hfail, hcfg, ?_, ?_⟩
  · intro hopen hnone
    have hret : (fscanf_s env.file_text header_format).ret ≠ 2 := by
      intro h
      exact hnone (header_sound env.file_text h)
    rw [load_config_header_failed env cfg w hopen hret]
    rcases header_failed env.file_text hret with ⟨hnd, hA⟩ | ⟨d, rest, hdev, hA⟩
    · rw [hA]
      exact ⟨rfl, rfl, fun d rest hd => absurd ⟨d, rest, hd⟩ hnd, fun _ => rfl⟩
    · rw [hA]
      refine ⟨rfl, rfl, ?_, fun h => absurd ⟨d, rest, hdev⟩ h⟩
      intro d2 rest2 hd2
      exact device_unique env.file_text d d2 rest rest2 hdev hd2
  · intro hopen d N tail hb
    have hscan := header_complete env.file_text d N tail hb
    have hret : (fscanf_s env.file_text header_format).ret = 2 := by rw [hscan]
    refine ⟨?_, ?_⟩
    · intro halloc
      obtain ⟨s, _, _, hl⟩ := load_config_alloc_failed env cfg w hopen hret halloc
      rw [hl, hscan]
      rfl
    · intro halloc
      obtain ⟨hc, _, hbd, hgood⟩ := load_config_loop_spec env cfg w hopen hret halloc
      rw [hscan] at hc hbd hgood
      refine ⟨hc, ?_⟩
      cases hm : bindings_malformed (store_header cfg [d, N]).number_actions (after_header tail) with
      | true => exact (hbd hm).2.2
      | false =>
        rw [(hgood hm).1] at hfail
        cases hfail

/-- Witness of C6: after the load of a file that declares three bindings and
supplies two, the caller's `config_t` holds the header values and the address
4096 of the block that was allocated and freed. -/
theorem load_config_failure_state_witness :
    (load_config short_env garbage_cfg initial_world).1 = false ∧
      (load_config short_env garbage_cfg initial_world).2.1 =
        { actions := 4096, input_device := 3, number_actions := 3 } ∧
      (load_config short_env garbage_cfg initial_world).2.2.heap = [] ∧
      (load_config short_env garbage_cfg initial_world).2.2.trace =
        [Event.fopen_s "config.ini" "rt" 0, Event.calloc 3 8 4096,
         Event.TaskDialog "Invalid config file.", Event.free 4096] :=
  have h := load_config_failure_state short_env garbage_cfg initial_world (by decide)
  have h4 := (h.2.2.2 (by decide) 3 3 _ short_env_header).2 (by decide)
  ⟨by decide, h4.1, h.1, h4.2⟩

/-- C7: in every run in which one of the three startup steps fails
(`load_config` returns `false`, `midiInOpen` or `midiInStart` does not return
`MMSYSERR_NOERROR`), `main` shows exactly one error dialog in total, returns
`EXIT_FAILURE`, which is not zero, never reaches `WaitOnAddress`, and performs
none of the later steps (no `midiInOpen` or `midiInStart` after a failed load,
no `midiInStart` after a failed open); `WaitOnAddress` is reached exactly when
all three steps succeed. -/
theorem main_startup_failure_terminal (env : Env) (cfg : config_t) :
    (((load_config env cfg initial_world).1 = false ∨
        env.midiInOpen_ret ≠ MMSYSERR_NOERROR ∨ env.midiInStart_ret ≠ MMSYSERR_NOERROR) →
      (dialogs (main env cfg).2.2.trace).length = 1 ∧
      (main env cfg).1 = Outcome.exit EXIT_FAILURE ∧ EXIT_FAILURE ≠ 0 ∧
      Event.WaitOnAddress ∉ (main env cfg).2.2.trace ∧
      ((load_config env cfg initial_world).1 = false →
        (∀ dev r, Event.midiInOpen dev r ∉ (main env cfg).2.2.trace) ∧
        (∀ r, Event.midiInStart r ∉ (main env cfg).2.2.trace)) ∧
      (env.midiInOpen_ret ≠ MMSYSERR_NOERROR →
        ∀ r, Event.midiInStart r ∉ (main env cfg).2.2.trace)) ∧
    (Event.WaitOnAddress ∈ (main env cfg).2.2.trace ↔
      (load_config env cfg initial_world).1 = true ∧
        env.midiInOpen_ret = MMSYSERR_NOERROR ∧ env.midiInStart_ret = MMSYSERR_NOERROR) := by
  obtain ⟨_, ⟨t, ht, hall, hdial⟩, _, _, _⟩ := load_config_effects env cfg initial_world
  obtain ⟨c1, c2, c3, c4⟩ := main_cases env cfg
  have hinit : initial_world.trace = [] := rfl
  rw [hinit, List.nil_append] at ht
  have hnot : ∀ e, is_dialog_or_heap e = false →
      e ≠ Event.fopen_s "config.ini" "rt" env.fopen_ret →
      e ∉ (load_config env cfg initial_world).2.2.trace := by
    intro e he hne
    rw [ht]
    intro hmem
    rcases List.mem_cons.mp hmem with h | h
    · exact hne h
    · exact not_mem_of_dialog_or_heap t e hall he h
  have hfail : ((load_config env cfg initial_world).1 = false ∨
      env.midiInOpen_ret ≠ MMSYSERR_NOERROR ∨ env.midiInStart_ret ≠ MMSYSERR_NOERROR) →
      (dialogs (main env cfg).2.2.trace).length = 1 ∧
      (main env cfg).1 = Outcome.exit EXIT_FAILURE ∧ EXIT_FAILURE ≠ 0 ∧
      Event.WaitOnAddress ∉ (main env cfg).2.2.trace ∧
      ((load_config env cfg initial_world).1 = false →
        (∀ dev r, Event.midiInOpen dev r ∉ (main env cfg).2.2.trace) ∧
        (∀ r, Event.midiInStart r ∉ (main env cfg).2.2.trace)) ∧
      (env.midiInOpen_ret ≠ MMSYSERR_NOERROR →
        ∀ r, Event.midiInStart r ∉ (main env cfg).2.2.trace) := by
    intro _
    cases hl : (load_config env cfg initial_world).1 with
    | false =>
      have hm := c1 hl
      have hd : (dialogs t).length = 1 := by rw [hdial, hl]; rfl
      rw [hm]
      refine ⟨?_, rfl, by decide, hnot _ rfl (by simp), fun _ => ⟨fun dev r => hnot _ rfl (by simp),
        fun r => hnot _ rfl (by simp)⟩, fun _ r => hnot _ rfl (by simp)⟩
      show (dialogs (load_config env cfg initial_world).2.2.trace).length = 1
      rw [ht]
      simpa [dialogs] using hd
    | true =>
      have hd : (dialogs t).length = 0 := by rw [hdial, hl]; rfl
      have hd0 : dialogs (load_config env cfg initial_world).2.2.trace = [] := by
        rw [ht]
        simpa [dialogs] using hd
      by_cases ho : env.midiInOpen_ret = MMSYSERR_NOERROR
      · by_cases hs : env.midiInStart_ret = MMSYSERR_NOERROR
        · rename_i hcase
          rcases hcase with h | h | h
          · rw [hl] at h; cases h
          · exact absurd ho h
          · exact absurd hs h
        · obtain ⟨m1, m2⟩ := c3 hl ho hs
          rw [m2]
          refine ⟨by simp [dialogs_append, hd0, dialogs], m1, by decide, ?_, ?_, ?_⟩
          · simp only [List.mem_append, List.mem_cons, List.mem_singleton, List.not_mem_nil,
              or_false, not_or]
            exact ⟨hnot _ rfl (by simp), by simp⟩
          · intro h
            exact Bool.noConfusion h
          · intro h
            exact absurd ho h
      · obtain ⟨m1, m2⟩ := c2 hl ho
        rw [m2]
        refine ⟨by simp [dialogs_append, hd0, dialogs], m1, by decide, ?_, ?_, ?_⟩
        · simp only [List.mem_append, List.mem_cons, List.mem_singleton, List.not_mem_nil,
            or_false, not_or]
          exact ⟨hnot _ rfl (by simp), by simp⟩
        · intro h
          exact Bool.noConfusion h
        · intro _ r
          simp only [List.mem_append, List.mem_cons, List.mem_singleton, List.not_mem_nil,
            or_false, not_or]
          exact ⟨hnot _ rfl (by simp), by simp⟩
  refine ⟨hfail, ⟨fun hw => ?_, fun ⟨h1, h2, h3⟩ => c4 h1 h2 h3⟩⟩
  by_contra hcon
  have hor : (load_config env cfg initial_world).1 = false ∨
      env.midiInOpen_ret ≠ MMSYSERR_NOERROR ∨ env.midiInStart_ret ≠ MMSYSERR_NOERROR := by
    by_cases h1 : (load_config env cfg initial_world).1 = true
    · by_cases h2 : env.midiInOpen_ret = MMSYSERR_NOERROR
      · by_cases h3 : env.midiInStart_ret = MMSYSERR_NOERROR
        · exact absurd ⟨h1, h2, h3⟩ hcon
        · exact Or.inr (Or.inr h3)
      · exact Or.inr (Or.inl h2)
    · exact Or.inl (by simpa using h1)
  exact (hfail hor).2.2.2.1 hw

/-- Witness of C7: when `midiInOpen` fails after a successful load, `main`
shows the one dialog "Unable to connect to the input device.", never calls
`midiInStart` or `WaitOnAddress`, and returns `EXIT_FAILURE`. -/
theorem main_startup_failure_terminal_witness :
    dialogs (main no_device_env garbage_cfg).2.2.trace =
        ["Unable to connect to the input device."] ∧
      (dialogs (main no_device_env garbage_cfg).2.2.trace).length = 1 ∧
      (main no_device_env garbage_cfg).1 = Outcome.exit EXIT_FAILURE ∧
      Event.WaitOnAddress ∉ (main no_device_env garbage_cfg).2.2.trace :=
  have h := (main_startup_failure_terminal no_device_env garbage_cfg).1
    (Or.inr (Or.inl (by decide)))
  ⟨by decide, h.1, h.2.1, h.2.2.2.1⟩

end MidiControl
